import Mathlib

set_option linter.unusedVariables false

/-!
Verification of the Virtual Teacher repository's document-processing and
turn-dispatch logic against its specification.  Python string values are
modelled as Lean `String` (lists of characters); Python exceptions are
modelled with `Except`.  Each regular-expression substitution used by the
code is embedded as an explicit scanner with the same leftmost-match
semantics as Python's `re.sub` for that concrete pattern.  Only ASCII
whitespace and case conversion are modelled, matching the ASCII texts the
program manipulates.
-/

namespace VT

/-! ### Python string primitives -/

/-- Whitespace as recognised by Python's `str.strip` / `\s` (ASCII range). -/
def pyIsSpace (c : Char) : Bool :=
  c = ' ' || c = '\t' || c = '\n' || c = '\r' || c = '\x0b' || c = '\x0c'

/-- Python `str.lower`, per character (ASCII). -/
def lowerL (l : List Char) : List Char := l.map Char.toLower

/-- Python `str.strip` on a character list. -/
def pyStripL (l : List Char) : List Char :=
  ((l.dropWhile pyIsSpace).reverse.dropWhile pyIsSpace).reverse

/-- Python `str.strip`. -/
def pyStrip (s : String) : String := ⟨pyStripL s.data⟩

/-- Python `str.lower`. -/
def pyLower (s : String) : String := ⟨lowerL s.data⟩

/-- Does the list start with the given prefix (Python `str.startswith`)? -/
def startsWithL : List Char → List Char → Bool
  | [], _ => true
  | _ :: _, [] => false
  | p :: ps, c :: cs => p = c && startsWithL ps cs

/-- Python substring containment `needle in hay`. -/
def isSubstrL (needle : List Char) : List Char → Bool
  | [] => startsWithL needle []
  | c :: cs => startsWithL needle (c :: cs) || isSubstrL needle cs

/-- Python `needle in hay` on strings. -/
def containsSub (hay needle : String) : Bool := isSubstrL needle.data hay.data

/-- Python no-argument `str.split`: split on whitespace runs, dropping
empty pieces (fuelled; the fuel is always instantiated with the length). -/
def pyWordsFuel : Nat → List Char → List (List Char)
  | 0, _ => []
  | _ + 1, [] => []
  | f + 1, c :: cs =>
    if pyIsSpace c then pyWordsFuel f cs
    else (c :: cs.takeWhile (fun d => !pyIsSpace d)) ::
      pyWordsFuel f (cs.dropWhile (fun d => !pyIsSpace d))

/-- Python no-argument `str.split` on a character list. -/
def pyWordsL (l : List Char) : List (List Char) := pyWordsFuel l.length l

/-! ### `is_specific_question` (main.py lines 33-55) -/

/-- Question/request keywords from `is_specific_question` (main.py line 41). -/
def question_words : List String :=
  ["what", "how", "why", "where", "when", "which", "who", "can you",
   "could you", "please", "help me", "explain", "tell me", "meaning",
   "define", "solve"]

/-- Greeting words from `is_specific_question` (main.py line 49). -/
def generic_greetings : List String :=
  ["hi", "hello", "hey", "good morning", "good afternoon", "namaste"]

/-- Embeds `is_specific_question` (main.py lines 33-55).  Python's
`not message or len(message.strip()) < 3` collapses to the single length
test since the empty string strips to length 0. -/
def is_specific_question (message : String) : Bool :=
  if (pyStripL message.data).length < 3 then false
  else
    let messageLower := pyStripL (lowerL message.data)
    let hasQuestionMark := isSubstrL ['?'] message.data
    let hasRequestWords := question_words.any (fun w => isSubstrL w.data messageLower)
    let isJustGreeting :=
      (generic_greetings.any (fun g => startsWithL g.data messageLower)) &&
        decide ((pyWordsL messageLower).length ≤ 3)
    (hasQuestionMark || hasRequestWords) && !isJustGreeting

/-! ### The chat dispatcher (main.py lines 408-429) -/

/-- The exact content-source literal for camera mode as it appears in
main.py (the bytes are mojibake of an emoji: U+00F0 U+0178 U+201C U+00B1). -/
def camera_source : String := "Camera Document (ðŸ“± NEW!)"

/-- The three conversational branches the `chat` handler can route to. -/
inductive TurnBranch
  | smart
  | greeting
  | followUp
deriving DecidableEq

/-- Embeds the branch selection of `chat` (main.py lines 408-429):
the history/message tests and the three-way `if`/`elif`/`else`. -/
def chat_dispatch (history : List (String × String)) (message : Option String)
    (src : String) : TurnBranch :=
  let isFirstTurn := history.length == 0
  let isEmptyMessage :=
    match message with
    | none => true
    | some m => pyStrip m == ""
  if isFirstTurn && !isEmptyMessage && is_specific_question (message.getD "") then
    .smart
  else if isFirstTurn || (isEmptyMessage && !(src == camera_source)) then
    .greeting
  else
    .followUp

/-! ### Spec-side formulations and theorems for C4 -/

/-- Number of non-whitespace characters of a string (the quantity the claim
C4 uses for its length gate). -/
def countNonWS (s : String) : Nat := (s.data.filter (fun c => !pyIsSpace c)).length

/-- Claim C4's classifier exactly as the claim words it: at least 3
non-whitespace characters, question mark or request word in the lowercased
message, and not a short greeting by the lowercased message. -/
def is_specific_question_claimed (m : String) : Bool :=
  decide (3 ≤ countNonWS m) &&
    (isSubstrL ['?'] m.data ||
      question_words.any (fun w => isSubstrL w.data (lowerL m.data))) &&
    !((generic_greetings.any (fun g => startsWithL g.data (lowerL m.data))) &&
      decide ((pyWordsL (lowerL m.data)).length ≤ 3))

/-- Amended classifier: the length gate counts the characters of the
stripped message, and the request-word and greeting tests use the
lowercased stripped message. -/
def is_specific_question_spec (m : String) : Bool :=
  decide (3 ≤ (pyStripL m.data).length) &&
    (isSubstrL ['?'] m.data ||
      question_words.any (fun w => isSubstrL w.data (pyStripL (lowerL m.data)))) &&
    !((generic_greetings.any (fun g => startsWithL g.data (pyStripL (lowerL m.data)))) &&
      decide ((pyWordsL (pyStripL (lowerL m.data))).length ≤ 3))

/-- Claim C4 is false as stated: `"? !"` has only 2 non-whitespace
characters (so the claimed classifier rejects it) yet the code accepts it,
because the code measures the length of the stripped message, interior
whitespace included; and `"  hi?"` is accepted by the claimed classifier
(its unstripped lowercase does not start with a greeting word) yet the
code rejects it as a short greeting after stripping. -/
theorem c4_counterexample :
    is_specific_question "? !" = true ∧
      is_specific_question_claimed "? !" = false ∧
      is_specific_question "  hi?" = false ∧
      is_specific_question_claimed "  hi?" = true := by
  decide

/-- Claim C4 (amended): `is_specific_question m` returns true exactly when
the stripped message has at least 3 characters AND (m contains `?` OR its
stripped lowercased form contains one of the fixed request words) AND its
stripped lowercased form is not a short greeting (starts with a greeting
word and has at most 3 words). -/
theorem c4_theorem (m : String) :
    is_specific_question m = is_specific_question_spec m := by
  unfold is_specific_question is_specific_question_spec
  by_cases h : (pyStripL m.data).length < 3
  · have h3 : ¬ 3 ≤ (pyStripL m.data).length := by omega
    simp [h, h3]
  · have h3 : 3 ≤ (pyStripL m.data).length := Nat.not_lt.mp h
    simp [h, h3]

/-- Witness for C4's theorem at the concrete input of the claim. -/
theorem c4_witness :
    is_specific_question "What does photosynthesis mean?" =
      is_specific_question_spec "What does photosynthesis mean?" :=
  c4_theorem "What does photosynthesis mean?"

/-! ### Spec-side formulation and theorems for C3 -/

/-- Is the incoming message empty or absent, as the dispatcher computes it
(absent, or stripping to the empty string)? -/
def msgIsEmpty (message : Option String) : Bool := pyStrip (message.getD "") == ""

/-- Amended dispatcher: rules in order — (1) first turn with a non-empty
message classified as a specific question routes to the smart branch;
(2) otherwise any first turn, or any turn whose message is empty with a
non-camera content source, routes to the greeting branch; (3) every other
turn routes to the follow-up branch. -/
def chat_dispatch_spec (history : List (String × String)) (message : Option String)
    (src : String) : TurnBranch :=
  if history = [] ∧ msgIsEmpty message = false ∧
      is_specific_question (message.getD "") = true then
    .smart
  else if history = [] ∨ (msgIsEmpty message = true ∧ src ≠ camera_source) then
    .greeting
  else
    .followUp

/-- Claim C3 is false as stated: on a non-first turn with an empty message
and content source "Chapter" the code selects the greeting branch, not the
follow-up branch the claim requires, so the greeting branch is not taken
only on first turns; and a first turn whose non-empty message "hi" is not
a specific question also selects the greeting branch even in camera mode. -/
theorem c3_counterexample :
    chat_dispatch [("hello", "reply")] (some "") "Chapter" = TurnBranch.greeting ∧
      TurnBranch.greeting ≠ TurnBranch.followUp ∧
      chat_dispatch [] (some "hi") camera_source = TurnBranch.greeting := by
  decide

/-- Claim C3 (amended): the dispatcher routes to the smart branch exactly
on a first turn with a non-empty message classified as a specific
question; otherwise it greets whenever the turn is a first turn, or the
message is empty and the source is not the camera mode; all remaining
turns go to the follow-up branch.  In particular, a first turn with an
empty message and content source "Chapter" selects the greeting branch. -/
theorem c3_theorem :
    (∀ h m s, chat_dispatch h m s = chat_dispatch_spec h m s) ∧
      chat_dispatch [] none "Chapter" = TurnBranch.greeting := by
  refine ⟨fun h m s => ?_, by decide⟩
  have hfirst : (h.length == 0) = decide (h = []) := by
    cases h <;> simp
  have hempty :
      (match m with
        | none => true
        | some x => pyStrip x == "") = msgIsEmpty m := by
    cases m
    · rfl
    · simp [msgIsEmpty, Option.getD]
  unfold chat_dispatch chat_dispatch_spec
  rw [hfirst, hempty]
  by_cases h1 : h = [] <;>
    by_cases h2 : msgIsEmpty m = true <;>
      by_cases h3 : is_specific_question (m.getD "") = true <;>
        by_cases h4 : s = camera_source <;>
          simp_all

/-! ### `identify_content_type` (utils.py lines 145-199) -/

/-- Result record of `DocumentProcessor.identify_content_type`.  The
Python float confidence only ever holds the literals 0.5, 0.8, 0.9, so it
is modelled exactly as a rational. -/
structure ContentAnalysis where
  type : String
  subject : String
  has_questions : Bool
  has_exercises : Bool
  confidence : ℚ

/-- Subject keyword table in the code's insertion order (utils.py 166-173). -/
def subjects : List (String × List String) :=
  [("math", ["math", "mathematics", "algebra", "geometry", "arithmetic",
             "addition", "subtraction", "multiplication", "division"]),
   ("english", ["english", "grammar", "vocabulary", "reading", "writing",
                "story", "poem"]),
   ("science", ["science", "physics", "chemistry", "biology", "experiment",
                "observation"]),
   ("history", ["history", "ancient", "medieval", "freedom", "independence",
                "rulers"]),
   ("geography", ["geography", "map", "continent", "country", "climate",
                  "river", "mountain"])]

/-- Does any of the keywords occur in the lowercased text? -/
def anyKeyword (kws : List String) (textLower : List Char) : Bool :=
  kws.any (fun k => isSubstrL k.data textLower)

/-- Homework-type keywords (utils.py line 182). -/
def homework_words : List String := ["homework", "assignment", "complete", "solve"]

/-- Textbook-type keywords (utils.py line 185). -/
def textbook_words : List String := ["chapter", "lesson", "learn", "understand"]

/-- Question indicators (utils.py line 190). -/
def question_indicators : List String :=
  ["?", "what", "how", "why", "where", "when", "which", "solve", "find",
   "calculate"]

/-- Exercise indicators (utils.py line 195). -/
def exercise_indicators : List String :=
  ["exercise", "practice", "solve", "complete", "fill", "choose", "match"]

/-- The subject-identification loop of `identify_content_type`
(utils.py lines 175-179): first matching subject wins, then `break`. -/
def subjectLoop : List (String × List String) → ContentAnalysis → List Char →
    ContentAnalysis
  | [], ct, _ => ct
  | (subj, kws) :: rest, ct, textLower =>
    if anyKeyword kws textLower then
      { ct with subject := subj, confidence := 4/5 }
    else subjectLoop rest ct textLower

/-- Embeds `DocumentProcessor.identify_content_type` (utils.py 145-199). -/
def identify_content_type (text : String) : ContentAnalysis :=
  let textLower := lowerL text.data
  let ct0 : ContentAnalysis := ⟨"general", "unknown", false, false, 1/2⟩
  let ct1 := subjectLoop subjects ct0 textLower
  let ct2 :=
    if anyKeyword homework_words textLower then
      { ct1 with type := "homework", confidence := 9/10 }
    else if anyKeyword textbook_words textLower then
      { ct1 with type := "textbook", confidence := 4/5 }
    else ct1
  let ct3 :=
    if anyKeyword question_indicators textLower then
      { ct2 with has_questions := true }
    else ct2
  if anyKeyword exercise_indicators textLower then
    { ct3 with has_exercises := true }
  else ct3

/-- Spec-side subject choice: the first subject of the fixed priority list
whose keyword list has a match; "unknown" when none matches. -/
def subject_spec (textLower : List Char) : String :=
  ((subjects.find? (fun p => anyKeyword p.2 textLower)).map Prod.fst).getD "unknown"

/-- Spec-side content type: homework beats textbook beats general. -/
def type_spec (textLower : List Char) : String :=
  if anyKeyword homework_words textLower then "homework"
  else if anyKeyword textbook_words textLower then "textbook"
  else "general"

/-- The Python for-loop with break computes the first-match semantics of
`List.find?`. -/
theorem subjectLoop_eq (l : List (String × List String)) (ct : ContentAnalysis)
    (tl : List Char) :
    subjectLoop l ct tl =
      match l.find? (fun p => anyKeyword p.2 tl) with
      | some p => { ct with subject := p.1, confidence := 4/5 }
      | none => ct := by
  induction l with
  | nil => rfl
  | cons hd rest ih =>
    obtain ⟨subj, kws⟩ := hd
    simp only [subjectLoop, List.find?]
    by_cases h : anyKeyword kws tl
    · simp [h]
    · simp [h, ih]

/-- Claim C5 (confirmed): the subject is the first subject of the fixed
priority order math, english, science, history, geography whose keyword
list matches, staying "unknown" when none matches; the type is homework
before textbook before general by the fixed keyword sets; the question and
exercise flags are independent keyword-presence tests; and the concrete
example from the spec evaluates as stated. -/
theorem c5_theorem :
    (∀ text : String,
        (identify_content_type text).subject = subject_spec (lowerL text.data) ∧
        (identify_content_type text).type = type_spec (lowerL text.data) ∧
        (identify_content_type text).has_questions =
          anyKeyword question_indicators (lowerL text.data) ∧
        (identify_content_type text).has_exercises =
          anyKeyword exercise_indicators (lowerL text.data)) ∧
      ((identify_content_type "Solve this math homework: 2+2=?").type = "homework" ∧
        (identify_content_type "Solve this math homework: 2+2=?").subject = "math" ∧
        (identify_content_type "Solve this math homework: 2+2=?").has_questions = true ∧
        (identify_content_type "Solve this math homework: 2+2=?").has_exercises = true) := by
  constructor
  · intro text
    simp only [identify_content_type, subject_spec, type_spec, subjectLoop_eq]
    rcases hfind : List.find? (fun p => anyKeyword p.2 (lowerL text.data)) subjects with
      _ | p <;>
      by_cases h1 : anyKeyword homework_words (lowerL text.data) <;>
        by_cases h2 : anyKeyword textbook_words (lowerL text.data) <;>
          by_cases h3 : anyKeyword question_indicators (lowerL text.data) <;>
            by_cases h4 : anyKeyword exercise_indicators (lowerL text.data) <;>
              simp [hfind, h1, h2, h3, h4]
  · decide

/-! ### PDF model and the OCR pipeline (utils.py 116-143, 201-235) -/

/-- A page of an opened PDF: its direct text layer (`page.get_text()`) and
the outcome of `pytesseract.image_to_string` on the page rendered with a
`fitz.Matrix(sx, sy)` zoom; a raising OCR call is `Except.error ()`. -/
structure PdfPage where
  text : String
  ocr : ℚ → ℚ → Except Unit String

/-- An opened PDF document is its ordered list of pages. -/
abbrev PdfDoc := List PdfPage

/-- Embeds `_extract_regular_pdf_text` (utils.py 201-215): concatenate
every page's nonempty text layer followed by a newline, then strip.  (Its
try/except returns "" only when the PDF library raises, which the
opened-document model excludes.) -/
def extract_regular_pdf_text (doc : PdfDoc) : String :=
  pyStrip (doc.foldl
    (fun content p => if p.text ≠ "" then content ++ p.text ++ "\n" else content) "")

/-- The page loop of `_extract_pdf_with_ocr` (utils.py 220-233): each page
is rendered at `Matrix(2.0, 2.0)` and OCRed; the extracted text
accumulates behind a numbered header per page; the first page whose OCR
raises lands in the `except` branch, which returns the stripped
accumulated text, abandoning that page and all later pages. -/
def ocrLoop : List PdfPage → Nat → String → String
  | [], _, acc => pyStrip acc
  | p :: rest, n, acc =>
    match p.ocr 2 2 with
    | .ok t =>
      ocrLoop rest (n + 1) (acc ++ "\n--- Page " ++ toString n ++ " ---\n" ++ t ++ "\n")
    | .error _ => pyStrip acc

/-- Embeds `_extract_pdf_with_ocr` (utils.py 217-235); Python page indices
are 0-based and the headers print `page_num + 1`, so numbering starts at 1. -/
def extract_pdf_with_ocr (doc : PdfDoc) : String := ocrLoop doc 1 ""

/-- Embeds `process_pdf_with_ocr` (utils.py 116-143): direct text-layer
extraction first, OCR fallback unless the direct text is nonempty and its
stripped form is longer than 50 characters. -/
def process_pdf_with_ocr (doc : PdfDoc) : String :=
  let regular_text := extract_regular_pdf_text doc
  if regular_text ≠ "" ∧ 50 < (pyStrip regular_text).length then regular_text
  else extract_pdf_with_ocr doc

/-- The text a page's 2x-rendered OCR produced (meaningful when it did not
raise). -/
def ocrText (p : PdfPage) : String :=
  match p.ocr 2 2 with
  | .ok t => t
  | .error _ => ""

/-- Spec-side concatenation: per-page OCR results, each behind its
"--- Page N ---" header, numbered consecutively from `n`. -/
def ocr_headers : List PdfPage → Nat → String
  | [], _ => ""
  | p :: rest, n =>
    "\n--- Page " ++ toString n ++ " ---\n" ++ ocrText p ++ "\n" ++ ocr_headers rest (n + 1)

/-- The OCR loop over pages that all succeed produces exactly the
header-labelled concatenation of the per-page results. -/
theorem ocrLoop_all_ok (l : List PdfPage) (n : Nat) (acc : String)
    (hok : ∀ p ∈ l, (p.ocr 2 2).isOk = true) :
    ocrLoop l n acc = pyStrip (acc ++ ocr_headers l n) := by
  induction l generalizing n acc with
  | nil => simp [ocrLoop, ocr_headers, String.append_empty]
  | cons p rest ih =>
    rcases hocr : p.ocr 2 2 with e | t
    · have := hok p (List.mem_cons_self p rest)
      rw [hocr] at this
      simp [Except.isOk, Except.toBool] at this
    · have hrest : ∀ q ∈ rest, (q.ocr 2 2).isOk = true :=
        fun q hq => hok q (List.mem_cons_of_mem p hq)
      simp only [ocrLoop, hocr]
      rw [ih _ _ hrest]
      simp only [ocr_headers, ocrText, hocr]
      simp [String.append_assoc]

/-- The OCR loop on a page list whose first failing page is `bad` returns
the stripped accumulation over the pages before `bad` only. -/
theorem ocrLoop_abort (pre : List PdfPage) (bad : PdfPage) (post : List PdfPage)
    (n : Nat) (acc : String)
    (hok : ∀ p ∈ pre, (p.ocr 2 2).isOk = true)
    (hbad : bad.ocr 2 2 = Except.error ()) :
    ocrLoop (pre ++ bad :: post) n acc = pyStrip (acc ++ ocr_headers pre n) := by
  induction pre generalizing n acc with
  | nil => simp [ocrLoop, hbad, ocr_headers, String.append_empty]
  | cons p rest ih =>
    rcases hocr : p.ocr 2 2 with e | t
    · have := hok p (List.mem_cons_self p rest)
      rw [hocr] at this
      simp [Except.isOk, Except.toBool] at this
    · have hrest : ∀ q ∈ rest, (q.ocr 2 2).isOk = true :=
        fun q hq => hok q (List.mem_cons_of_mem p hq)
      simp only [List.cons_append, ocrLoop, hocr, List.append_eq]
      rw [ih _ _ hrest]
      simp only [ocr_headers, ocrText, hocr]
      simp [String.append_assoc]

/-- Three-page scanned document from the claim: empty text layer, OCR of
page 1 yields "ONE", OCR of page 2 raises, OCR of page 3 yields "THREE". -/
def c2doc : PdfDoc :=
  [⟨"", fun _ _ => Except.ok "ONE"⟩,
   ⟨"", fun _ _ => Except.error ()⟩,
   ⟨"", fun _ _ => Except.ok "THREE"⟩]

/-- Claim C2 is false as stated: on the three-page scanned document where
page 2's OCR raises, the result contains only page 1's text; page 3 is not
processed at all — the loop is aborted by the exception — and the failing
page contributes no section, not an empty one. -/
theorem c2_counterexample :
    process_pdf_with_ocr c2doc = "--- Page 1 ---\nONE" ∧
      containsSub (process_pdf_with_ocr c2doc) "THREE" = false := by
  decide

/-- Claim C2 (amended): for a multi-page scanned PDF whose stripped direct
text is at most 50 characters, if the per-page OCR call raises on one page
then `process_pdf_with_ocr` returns without raising and its result is the
stripped header-labelled concatenation of the pages before the failing
page; the failing page and every later page contribute nothing. -/
theorem c2_theorem (pre : List PdfPage) (bad : PdfPage) (post : List PdfPage)
    (hok : ∀ p ∈ pre, (p.ocr 2 2).isOk = true)
    (hbad : bad.ocr 2 2 = Except.error ())
    (hshort : (pyStrip (extract_regular_pdf_text (pre ++ bad :: post))).length ≤ 50) :
    process_pdf_with_ocr (pre ++ bad :: post) = pyStrip (ocr_headers pre 1) := by
  have hcond : ¬ (extract_regular_pdf_text (pre ++ bad :: post) ≠ "" ∧
      50 < (pyStrip (extract_regular_pdf_text (pre ++ bad :: post))).length) := by
    rintro ⟨-, hlen⟩
    omega
  simp only [process_pdf_with_ocr]
  rw [if_neg hcond]
  unfold extract_pdf_with_ocr
  rw [ocrLoop_abort pre bad post 1 "" hok hbad, String.empty_append]

/-- Witness for C2's amended theorem on the concrete three-page document. -/
theorem c2_witness :
    process_pdf_with_ocr c2doc = "--- Page 1 ---\nONE" := by
  have h := c2_theorem [⟨"", fun _ _ => Except.ok "ONE"⟩]
    ⟨"", fun _ _ => Except.error ()⟩ [⟨"", fun _ _ => Except.ok "THREE"⟩]
    (by
      intro p hp
      simp only [List.mem_singleton] at hp
      subst hp
      rfl)
    rfl (by decide)
  exact h.trans (by decide)

/-- One-page document whose direct text layer strips to exactly 50
characters, with a distinct OCR result. -/
def c9doc : PdfDoc :=
  [⟨"aaaaaaaaaaaaaaaaaaaaaaaaaaaaaaaaaaaaaaaaaaaaaaaaaa",
    fun _ _ => Except.ok "OCRTEXT"⟩]

/-- Claim C9 is false as stated: a direct text layer of exactly 50
characters is not "shorter than 50 characters", so by the claim the direct
text would be returned unchanged, yet the code takes the OCR fallback
(its test demands strictly more than 50 characters to keep the direct
text). -/
theorem c9_counterexample :
    (pyStrip (extract_regular_pdf_text c9doc)).length = 50 ∧
      process_pdf_with_ocr c9doc ≠ extract_regular_pdf_text c9doc ∧
      process_pdf_with_ocr c9doc = "--- Page 1 ---\nOCRTEXT" := by
  decide

/-- Claim C9 (amended): `process_pdf_with_ocr` attempts direct text-layer
extraction first; it falls back to rendering each page at 2x scale and
running OCR per page — concatenating the per-page results behind
"--- Page N ---" headers — if and only if the stripped direct result has
at most 50 characters (not: fewer than 50); otherwise it returns the
directly extracted text unchanged. -/
theorem c9_theorem (doc : PdfDoc) :
    (50 < (pyStrip (extract_regular_pdf_text doc)).length →
      process_pdf_with_ocr doc = extract_regular_pdf_text doc) ∧
    ((pyStrip (extract_regular_pdf_text doc)).length ≤ 50 →
      (∀ p ∈ doc, (p.ocr 2 2).isOk = true) →
      process_pdf_with_ocr doc = pyStrip (ocr_headers doc 1)) := by
  constructor
  · intro hlong
    have hne : extract_regular_pdf_text doc ≠ "" := by
      intro h
      rw [h] at hlong
      simp [pyStrip, pyStripL] at hlong
    simp only [process_pdf_with_ocr]
    rw [if_pos ⟨hne, hlong⟩]
  · intro hshort hok
    have hcond : ¬ (extract_regular_pdf_text doc ≠ "" ∧
        50 < (pyStrip (extract_regular_pdf_text doc)).length) := by
      rintro ⟨-, hlen⟩
      omega
    simp only [process_pdf_with_ocr]
    rw [if_neg hcond]
    unfold extract_pdf_with_ocr
    rw [ocrLoop_all_ok doc 1 "" hok, String.empty_append]

/-- Witness for C9's amended theorem: both hypotheses discharged on
concrete one-page documents — a long direct text layer is kept unchanged,
and a short one yields the header-labelled OCR concatenation. -/
theorem c9_witness :
    process_pdf_with_ocr
        [⟨"bbbbbbbbbbbbbbbbbbbbbbbbbbbbbbbbbbbbbbbbbbbbbbbbbbb",
          fun _ _ => Except.ok "OCRTEXT"⟩] =
      extract_regular_pdf_text
        [⟨"bbbbbbbbbbbbbbbbbbbbbbbbbbbbbbbbbbbbbbbbbbbbbbbbbbb",
          fun _ _ => Except.ok "OCRTEXT"⟩] ∧
    process_pdf_with_ocr c9doc = pyStrip (ocr_headers c9doc 1) := by
  constructor
  · exact (c9_theorem _).1 (by decide)
  · exact (c9_theorem c9doc).2 (by decide)
      (by
        intro p hp
        simp only [c9doc, List.mem_singleton] at hp
        subst hp
        rfl)


/-! ### Content loading (utils.py 335-437) -/

/-- Python exception surrogate: the loaders raise `FileNotFoundError` or
`ValueError`; `other` stands for any remaining `Exception`. -/
inductive PyErr
  | fileNotFound (msg : String)
  | valueError (msg : String)
  | other (msg : String)
deriving DecidableEq

/-- A filesystem fragment: maps a path to the page texts of the document
stored there (`none` when no file exists at the path). -/
def FileSystem := String → Option (List String)

/-- Joining with a separator, Python `sep.join(parts)`. -/
def joinWith (sep : String) : List String → String
  | [] => ""
  | [s] => s
  | s :: rest => s ++ sep ++ joinWith sep rest

/-- The chapter path built by `load_pdf_content` (utils.py 375-377):
repo root / "content" / lowercased subject / "chapterN.pdf". -/
def chapter_path (root subject : String) (chapter_number : Nat) : String :=
  root ++ "/content/" ++ pyLower subject ++ "/chapter" ++
    toString chapter_number ++ ".pdf"

/-- The page loop of `load_pdf_content` (utils.py 386-392): concatenate
every nonempty page text, no separator. -/
def chapter_concat (pages : List String) : String :=
  pages.foldl (fun content text => if text ≠ "" then content ++ text else content) ""

/-- The not-found message of `load_pdf_content` (utils.py 380-383). -/
def content_not_found_msg (root subject : String) (n : Nat) : String :=
  "Content not found: " ++ chapter_path root subject n ++ " (subject=" ++
    subject ++ ", chapter=" ++ toString n ++ ")"

/-- The unreadable message of `load_pdf_content` (utils.py 394-398). -/
def no_text_msg (root subject : String) (n : Nat) : String :=
  "PDF has no extractable text: " ++ chapter_path root subject n ++
    ". Consider using OCR for scanned documents."

/-- Embeds `FileManager.load_pdf_content` (utils.py 359-401): missing path
raises `FileNotFoundError`; empty concatenated content raises
`ValueError`; otherwise the content is returned. -/
def load_pdf_content (fs : FileSystem) (root subject : String)
    (chapter_number : Nat) : Except PyErr String :=
  match fs (chapter_path root subject chapter_number) with
  | none => .error (.fileNotFound (content_not_found_msg root subject chapter_number))
  | some pages =>
    if chapter_concat pages = "" then
      .error (.valueError (no_text_msg root subject chapter_number))
    else .ok (chapter_concat pages)

/-- The final path component, pathlib's `PurePath.name` (characters after
the last '/'). -/
def pathName (p : String) : String :=
  ⟨(p.data.reverse.takeWhile (fun c => c ≠ '/')).reverse⟩

/-- pathlib's `PurePath.suffix`: the extension of the final component from
its last dot, empty when the dot is absent, leading, or trailing. -/
def pathSuffix (p : String) : String :=
  let rev := (pathName p).data.reverse
  let afterDot := rev.takeWhile (fun c => c ≠ '.')
  if afterDot.length = rev.length then ""
  else if afterDot.length = 0 then ""
  else if afterDot.length + 1 = rev.length then ""
  else ⟨'.' :: afterDot.reverse⟩

/-- The text `load_pdf_from_path` extracts (utils.py 425-432): nonempty
page texts joined with newlines, then stripped. -/
def uploaded_text (pages : List String) : String :=
  pyStrip (joinWith "\n" (pages.filter (fun t => t ≠ "")))

/-- Embeds `FileManager.load_pdf_from_path` (utils.py 403-437): missing
path raises `FileNotFoundError`; a suffix other than ".pdf" (lowercased)
raises `ValueError`; an empty extracted text raises `ValueError`;
otherwise the extracted text is returned. -/
def load_pdf_from_path (fs : FileSystem) (p : String) : Except PyErr String :=
  match fs p with
  | none => .error (.fileNotFound ("Uploaded file not found: " ++ p))
  | some pages =>
    if pyLower (pathSuffix p) ≠ ".pdf" then
      .error (.valueError ("Unsupported file type: " ++ pathSuffix p ++
        ". Please upload a .pdf"))
    else if uploaded_text pages = "" then
      .error (.valueError
        "The uploaded PDF has no extractable text. It may be scanned. Try OCR.")
    else .ok (uploaded_text pages)

/-- Appending strings yields the empty string only when both parts are empty. -/
theorem string_append_eq_empty (a b : String) : a ++ b = "" ↔ a = "" ∧ b = "" := by
  constructor
  · intro h
    have hd := congrArg String.data h
    rw [String.data_append] at hd
    rcases List.append_eq_nil.mp hd with ⟨h1, h2⟩
    constructor
    · cases a
      cases h1
      rfl
    · cases b
      cases h2
      rfl
  · rintro ⟨rfl, rfl⟩
    rfl

/-- The page-concatenation fold of `load_pdf_content`, generalized over
its accumulator, is empty exactly when the accumulator and every page
text are empty. -/
theorem chapter_concat_aux (pages : List String) (acc : String) :
    pages.foldl (fun content text => if text ≠ "" then content ++ text else content)
        acc = "" ↔
      acc = "" ∧ ∀ t ∈ pages, t = "" := by
  induction pages generalizing acc with
  | nil => simp
  | cons t rest ih =>
    rw [List.foldl_cons]
    by_cases ht : t = ""
    · rw [show (if t ≠ "" then acc ++ t else acc) = acc from by simp [ht]]
      rw [ih]
      simp [List.forall_mem_cons, ht]
    · rw [show (if t ≠ "" then acc ++ t else acc) = acc ++ t from by simp [ht]]
      rw [ih, string_append_eq_empty]
      simp [List.forall_mem_cons, ht]

/-- The chapter content is empty exactly when every page text is empty. -/
theorem chapter_concat_eq_empty (pages : List String) :
    chapter_concat pages = "" ↔ ∀ t ∈ pages, t = "" := by
  rw [chapter_concat, chapter_concat_aux]
  simp

/-- Evaluation of `load_pdf_content` on a present path. -/
theorem load_pdf_content_some (fs : FileSystem) (root subject : String) (n : Nat)
    (pages : List String) (hfs : fs (chapter_path root subject n) = some pages) :
    load_pdf_content fs root subject n =
      (if chapter_concat pages = "" then
        .error (.valueError (no_text_msg root subject n))
      else .ok (chapter_concat pages)) := by
  unfold load_pdf_content
  rw [hfs]

/-- Evaluation of `load_pdf_content` on an absent path. -/
theorem load_pdf_content_none (fs : FileSystem) (root subject : String) (n : Nat)
    (hfs : fs (chapter_path root subject n) = none) :
    load_pdf_content fs root subject n =
      .error (.fileNotFound (content_not_found_msg root subject n)) := by
  unfold load_pdf_content
  rw [hfs]

/-- Evaluation of `load_pdf_from_path` on a present path. -/
theorem load_pdf_from_path_some (fs : FileSystem) (p : String)
    (pages : List String) (hfs : fs p = some pages) :
    load_pdf_from_path fs p =
      (if pyLower (pathSuffix p) ≠ ".pdf" then
        .error (.valueError ("Unsupported file type: " ++ pathSuffix p ++
          ". Please upload a .pdf"))
      else if uploaded_text pages = "" then
        .error (.valueError
          "The uploaded PDF has no extractable text. It may be scanned. Try OCR.")
      else .ok (uploaded_text pages)) := by
  unfold load_pdf_from_path
  rw [hfs]

/-- Evaluation of `load_pdf_from_path` on an absent path. -/
theorem load_pdf_from_path_none (fs : FileSystem) (p : String) (hfs : fs p = none) :
    load_pdf_from_path fs p =
      .error (.fileNotFound ("Uploaded file not found: " ++ p)) := by
  unfold load_pdf_from_path
  rw [hfs]

/-- Claim C6 (confirmed): `load_pdf_content` raises the not-found error
exactly when the built chapter path is absent, and the unreadable-content
error exactly when the document there yields no extractable text (every
page text empty), returning the concatenated text otherwise;
`load_pdf_from_path` raises not-found exactly for a missing path, rejects
any suffix other than ".pdf" with the unreadable-content error kind, and
on a .pdf raises unreadable-content exactly when the stripped
newline-joined page text it extracts is empty, returning it otherwise. -/
theorem c6_theorem (fs : FileSystem) (root subject : String) (n : Nat) (p : String) :
    ((∃ msg, load_pdf_content fs root subject n = .error (.fileNotFound msg)) ↔
        fs (chapter_path root subject n) = none) ∧
    (∀ pages, fs (chapter_path root subject n) = some pages →
        (((∃ msg, load_pdf_content fs root subject n = .error (.valueError msg)) ↔
            ∀ t ∈ pages, t = "") ∧
          (¬ (∀ t ∈ pages, t = "") →
            load_pdf_content fs root subject n = .ok (chapter_concat pages)))) ∧
    ((∃ msg, load_pdf_from_path fs p = .error (.fileNotFound msg)) ↔ fs p = none) ∧
    (∀ pages, fs p = some pages → pyLower (pathSuffix p) ≠ ".pdf" →
        ∃ msg, load_pdf_from_path fs p = .error (.valueError msg)) ∧
    (∀ pages, fs p = some pages → pyLower (pathSuffix p) = ".pdf" →
        (((∃ msg, load_pdf_from_path fs p = .error (.valueError msg)) ↔
            uploaded_text pages = "") ∧
          (uploaded_text pages ≠ "" →
            load_pdf_from_path fs p = .ok (uploaded_text pages)))) := by
  refine ⟨?_, ?_, ?_, ?_, ?_⟩
  · constructor
    · rintro ⟨msg, hmsg⟩
      rcases hfs : fs (chapter_path root subject n) with _ | pages
      · rfl
      · exfalso
        rw [load_pdf_content_some fs root subject n pages hfs] at hmsg
        by_cases hc : chapter_concat pages = "" <;> simp [hc] at hmsg
    · intro h
      exact ⟨content_not_found_msg root subject n, load_pdf_content_none fs root subject n h⟩
  · intro pages hfs
    rw [load_pdf_content_some fs root subject n pages hfs]
    constructor
    · constructor
      · rintro ⟨msg, hmsg⟩
        by_cases hc : chapter_concat pages = ""
        · exact (chapter_concat_eq_empty pages).mp hc
        · simp [hc] at hmsg
      · intro hall
        rw [if_pos ((chapter_concat_eq_empty pages).mpr hall)]
        exact ⟨no_text_msg root subject n, rfl⟩
    · intro hnall
      have hc : chapter_concat pages ≠ "" := fun h =>
        hnall ((chapter_concat_eq_empty pages).mp h)
      rw [if_neg hc]
  · constructor
    · rintro ⟨msg, hmsg⟩
      rcases hfs : fs p with _ | pages
      · rfl
      · exfalso
        rw [load_pdf_from_path_some fs p pages hfs] at hmsg
        by_cases hsfx : pyLower (pathSuffix p) ≠ ".pdf"
        · simp [hsfx] at hmsg
        · by_cases hc : uploaded_text pages = "" <;> simp [hsfx, hc] at hmsg
    · intro h
      exact ⟨"Uploaded file not found: " ++ p, load_pdf_from_path_none fs p h⟩
  · intro pages hfs hsfx
    rw [load_pdf_from_path_some fs p pages hfs, if_pos hsfx]
    exact ⟨_, rfl⟩
  · intro pages hfs hsfx
    have hsfx' : ¬ pyLower (pathSuffix p) ≠ ".pdf" := fun h => h hsfx
    rw [load_pdf_from_path_some fs p pages hfs, if_neg hsfx']
    constructor
    · constructor
      · rintro ⟨msg, hmsg⟩
        by_cases hc : uploaded_text pages = ""
        · exact hc
        · simp [hc] at hmsg
      · intro hc
        rw [if_pos hc]
        exact ⟨_, rfl⟩
    · intro hc
      rw [if_neg hc]

/-- Concrete filesystem fragment exercising all branches of the loaders. -/
def c6fs : FileSystem := fun path =>
  if path = "/repo/content/math/chapter1.pdf" then some ["mathtext"]
  else if path = "/repo/content/math/chapter2.pdf" then some [""]
  else if path = "/repo/upload/notes.txt" then some ["x"]
  else if path = "/repo/upload/doc.pdf" then some ["hello", ""]
  else none

/-- Witness for C6's theorem: the error/success behaviours on concrete
inputs — missing chapter, chapter with empty text layer, readable chapter,
non-PDF upload, and a readable uploaded PDF. -/
theorem c6_witness :
    (∃ msg, load_pdf_content c6fs "/repo" "Math" 5 =
      Except.error (PyErr.fileNotFound msg)) ∧
    (∃ msg, load_pdf_content c6fs "/repo" "Math" 2 =
      Except.error (PyErr.valueError msg)) ∧
    load_pdf_content c6fs "/repo" "Math" 1 = Except.ok "mathtext" ∧
    (∃ msg, load_pdf_from_path c6fs "/repo/upload/notes.txt" =
      Except.error (PyErr.valueError msg)) ∧
    load_pdf_from_path c6fs "/repo/upload/doc.pdf" = Except.ok "hello" := by
  refine ⟨?_, ?_, ?_, ?_, ?_⟩
  · exact (c6_theorem c6fs "/repo" "Math" 5 "x").1.mpr (by decide)
  · exact ((c6_theorem c6fs "/repo" "Math" 2 "x").2.1 [""] (by decide)).1.mpr
      (by decide)
  · have h := ((c6_theorem c6fs "/repo" "Math" 1 "x").2.1 ["mathtext"]
      (by decide)).2 (by decide)
    exact h.trans (congrArg Except.ok (by decide))
  · exact (c6_theorem c6fs "/repo" "Math" 1 "/repo/upload/notes.txt").2.2.2.1
      ["x"] (by decide) (by decide)
  · have h := ((c6_theorem c6fs "/repo" "Math" 1 "/repo/upload/doc.pdf").2.2.2.2
      ["hello", ""] (by decide) (by decide)).2 (by decide)
    exact h.trans (congrArg Except.ok (by decide))


/-! ### `AnswerFromDocumentTool` (custom_tool.py 114-164) -/

/-- Environment seen by `AnswerFromDocumentTool._run`: the
CURRENT_SESSION_CONTENT environment variable, path existence, and the
result of opening and reading a file (which may raise). -/
structure ToolEnv where
  session_content : Option String
  file_exists : String → Bool
  read_file : String → Except PyErr String

/-- Response of `_explain_terms` (custom_tool.py 154-155). -/
def explain_terms (question : String) : String :=
  "Let me help you understand the terms in your question!\n\n" ++ question ++
    "\n\nBased on your document, I can explain this concept in simple words. What specific word or term would you like me to focus on?"

/-- Response of `_provide_solution_guidance` (custom_tool.py 157-158). -/
def provide_solution_guidance (question : String) : String :=
  "I\x27ll help you solve this step by step!\n\n" ++ question ++
    "\n\nLet me break this down into smaller, easier steps. First, let\x27s understand what the question is asking, then we\x27ll solve it together."

/-- Response of `_provide_explanation` (custom_tool.py 160-161). -/
def provide_explanation (question : String) : String :=
  "Great question! Let me explain this concept clearly.\n\n" ++ question ++
    "\n\nI\x27ll use simple examples to help you understand this better."

/-- Response of `_general_help` (custom_tool.py 163-164). -/
def general_help (question : String) : String :=
  "I\x27m here to help with your question!\n\n" ++ question ++
    "\n\nCould you tell me more specifically what you need help with? For example:\n• Do you need word meanings?\n• Should I solve a problem?\n• Do you want an explanation of a concept?"

/-- Embeds `_provide_contextual_help` (custom_tool.py 141-152): routes on
keywords of the lowercased question.  (The document content parameter is
accepted and ignored by every helper, as in the code.) -/
def provide_contextual_help (question content : String) : String :=
  let ql := pyLower question
  if ["meaning", "what does", "define"].any (fun w => containsSub ql w) then
    explain_terms question
  else if ["solve", "answer", "how to"].any (fun w => containsSub ql w) then
    provide_solution_guidance question
  else if ["explain", "why", "how"].any (fun w => containsSub ql w) then
    provide_explanation question
  else general_help question

/-- The rest of the list after the first occurrence of `sep`, or `none`
when `sep` does not occur (Python `s.split(sep, 1)[1]` when it exists). -/
def afterFirst (sep : List Char) : List Char → Option (List Char)
  | [] => if sep = [] then some [] else none
  | c :: cs =>
    if startsWithL sep (c :: cs) then some (List.drop sep.length (c :: cs))
    else afterFirst sep cs

/-- The metadata stripping of `_run` (custom_tool.py 129-130): when the
stored content carries the CONTENT_TYPE header, keep only what follows the
first blank line. -/
def extract_content (content : String) : String :=
  if containsSub content "CONTENT_TYPE:" then
    match afterFirst ("\n\n".data) content.data with
    | some rest => (⟨rest⟩ : String)
    | none => content
  else content

/-- The fixed no-document message of `_run` (custom_tool.py 123). -/
def noDocMsg : String :=
  "I don\x27t have any document content to reference. Please upload your homework or textbook first!"

/-- The fixed fallback of `_run`'s except branch (custom_tool.py 139). -/
def troubleMsg : String :=
  "I had trouble accessing the document content. Could you ask your question again or re-upload the document?"

/-- The try-block body of `AnswerFromDocumentTool._run` (custom_tool.py
119-135): Python's `not session_content_path` is true for an unset or
empty variable. -/
def answer_from_document_body (env : ToolEnv) (question : String) :
    Except PyErr String :=
  match env.session_content with
  | none => .ok noDocMsg
  | some path =>
    if path = "" || !env.file_exists path then .ok noDocMsg
    else
      match env.read_file path with
      | .error e => .error e
      | .ok content => .ok (provide_contextual_help question (extract_content content))

/-- Embeds `AnswerFromDocumentTool._run` (custom_tool.py 118-139): the
try/except converts every raised exception into the fixed fallback. -/
def answer_from_document_run (env : ToolEnv) (question : String) : String :=
  match answer_from_document_body env question with
  | .ok s => s
  | .error _ => troubleMsg

/-- The body of `_run` always lands in one of three shapes: the canned
no-document message, a raised exception, or a contextual-help response. -/
theorem answer_body_cases (env : ToolEnv) (question : String) :
    answer_from_document_body env question = .ok noDocMsg ∨
    (∃ e, answer_from_document_body env question = .error e) ∨
    (∃ content, answer_from_document_body env question =
      .ok (provide_contextual_help question content)) := by
  unfold answer_from_document_body
  rcases env.session_content with _ | path
  · exact Or.inl rfl
  · by_cases hcond : (path = "" || !env.file_exists path) = true
    · refine Or.inl ?_
      simp [hcond]
    · rcases hrf : env.read_file path with e | content
      · refine Or.inr (Or.inl ⟨e, ?_⟩)
        simp [hcond, hrf]
      · refine Or.inr (Or.inr ⟨extract_content content, ?_⟩)
        simp [hcond, hrf]

/-- Claim C10 (confirmed): when no session content has been stored — the
environment variable is unset or the file it points to does not exist —
`AnswerFromDocumentTool._run` returns the fixed upload-first message; when
the body raises, the result is the fixed trouble message, so for every
environment and question the tool returns one of its canned forms and
never lets an exception escape. -/
theorem c10_theorem (env : ToolEnv) (question : String) :
    ((env.session_content = none ∨
        (∃ p, env.session_content = some p ∧ env.file_exists p = false)) →
      answer_from_document_run env question = noDocMsg) ∧
    (∀ e, answer_from_document_body env question = .error e →
      answer_from_document_run env question = troubleMsg) ∧
    (answer_from_document_run env question = noDocMsg ∨
      answer_from_document_run env question = troubleMsg ∨
      ∃ content, answer_from_document_run env question =
        provide_contextual_help question content) := by
  refine ⟨?_, ?_, ?_⟩
  · rintro (h | ⟨p, hp, hex⟩)
    · unfold answer_from_document_run answer_from_document_body
      rw [h]
    · unfold answer_from_document_run answer_from_document_body
      rw [hp]
      by_cases hp0 : p = ""
      · simp [hp0]
      · simp [hp0, hex]
  · intro e he
    unfold answer_from_document_run
    rw [he]
  · rcases answer_body_cases env question with hb | ⟨e, hb⟩ | ⟨content, hb⟩
    · left
      unfold answer_from_document_run
      rw [hb]
    · right
      left
      unfold answer_from_document_run
      rw [hb]
    · right
      right
      refine ⟨content, ?_⟩
      unfold answer_from_document_run
      rw [hb]

/-- Environment whose stored path raises on read. -/
def c10envRaise : ToolEnv :=
  ⟨some "/tmp/sess.txt", fun _ => true, fun _ => .error (.other "io error")⟩

/-- Witness for C10's theorem: an unset variable yields the upload-first
message, a dangling path yields it too, and a raising read yields the
trouble message. -/
theorem c10_witness :
    answer_from_document_run ⟨none, fun _ => false, fun _ => .ok ""⟩ "what is this?" =
      noDocMsg ∧
    answer_from_document_run ⟨some "/tmp/gone.txt", fun _ => false, fun _ => .ok ""⟩
      "solve it" = noDocMsg ∧
    answer_from_document_run c10envRaise "why?" = troubleMsg := by
  refine ⟨?_, ?_, ?_⟩
  · exact (c10_theorem _ "what is this?").1 (Or.inl rfl)
  · exact (c10_theorem _ "solve it").1 (Or.inr ⟨"/tmp/gone.txt", rfl, rfl⟩)
  · exact (c10_theorem c10envRaise "why?").2.1 (.other "io error") rfl


/-! ### `clean_text_for_audio` (utils.py 243-252)

Each `re.sub` of the function is embedded as a scanner over the character
list with the same leftmost-match semantics (greedy quantifiers with the
backtracking Python's engine performs for that concrete pattern). -/

/-- Scanner for `re.sub(r'\*\*|\*|__|~~|`|-', '', text)` (utils.py 245):
every '*', '`', '-' is removed (the `\*\*` alternative removes the same
characters as two `\*` matches), and pairs "__" and "~~" are removed while
single '_' and '~' stay. -/
def subEmphasis : List Char → List Char
  | [] => []
  | [c] => if c = '*' || c = '`' || c = '-' then [] else [c]
  | c :: d :: rest =>
    if c = '*' || c = '`' || c = '-' then subEmphasis (d :: rest)
    else if (c = '_' && d = '_') || (c = '~' && d = '~') then subEmphasis rest
    else c :: subEmphasis (d :: rest)

/-- One match attempt of `\([^()\n]+\)` just after an opening parenthesis:
a nonempty run free of parentheses and newlines followed by ')'; returns
the rest after the closing parenthesis on success. -/
def parenMatch (cs : List Char) : Option (List Char) :=
  let run := cs.takeWhile (fun c => c ≠ '(' && c ≠ ')' && c ≠ '\n')
  let rest := cs.dropWhile (fun c => c ≠ '(' && c ≠ ')' && c ≠ '\n')
  match run, rest with
  | [], _ => none
  | _ :: _, ')' :: rest2 => some rest2
  | _ :: _, _ => none

/-- Scanner for `re.sub(r'\([^()\n]+\)', '', text)` (utils.py 247),
fuelled; the fuel is instantiated with the length, which suffices because
every step consumes at least one character. -/
def subParensFuel : Nat → List Char → List Char
  | 0, cs => cs
  | _ + 1, [] => []
  | f + 1, c :: rest =>
    if c = '(' then
      match parenMatch rest with
      | some rest2 => subParensFuel f rest2
      | none => c :: subParensFuel f rest
    else c :: subParensFuel f rest

/-- Scanner for `re.sub(r'\([^()\n]+\)', '', text)`. -/
def subParens (cs : List Char) : List Char := subParensFuel cs.length cs

/-- One match attempt of `(\d+\.\s*)([^\n]+)` at a digit: the maximal
digit run must be followed by '.'; the greedy `\s*` then backtracks just
enough for `[^\n]+` to match at least one character — when the whitespace
run is followed by a character that character starts group 2, and when it
reaches the end of the string the engine backs up to the last non-newline
whitespace character, which then forms group 2 by itself.  Returns the
replacement `\1\2.` and the rest of the input on success. -/
def numListMatch (cs : List Char) : Option (List Char × List Char) :=
  let digits := cs.takeWhile Char.isDigit
  let afterDigits := cs.dropWhile Char.isDigit
  match digits, afterDigits with
  | [], _ => none
  | _ :: _, '.' :: cs2 =>
    let ws := cs2.takeWhile pyIsSpace
    let afterWs := cs2.dropWhile pyIsSpace
    match afterWs with
    | _ :: _ =>
      let g2 := afterWs.takeWhile (fun c => c ≠ '\n')
      let rest := afterWs.dropWhile (fun c => c ≠ '\n')
      some (digits ++ '.' :: (ws ++ g2 ++ ['.']), rest)
    | [] =>
      let rev := ws.reverse
      let nlTail := rev.takeWhile (fun c => c = '\n')
      match rev.dropWhile (fun c => c = '\n') with
      | [] => none
      | c :: before =>
        some (digits ++ '.' :: ((c :: before).reverse ++ ['.']), nlTail.reverse)
  | _ :: _, _ => none

/-- Scanner for `re.sub(r'(\d+\.\s*)([^\n]+)', r'\1\2.', text)`
(utils.py 248), fuelled. -/
def subNumListFuel : Nat → List Char → List Char
  | 0, cs => cs
  | _ + 1, [] => []
  | f + 1, c :: rest =>
    if c.isDigit then
      match numListMatch (c :: rest) with
      | some (repl, rest2) => repl ++ subNumListFuel f rest2
      | none => c :: subNumListFuel f rest
    else c :: subNumListFuel f rest

/-- Scanner for `re.sub(r'(\d+\.\s*)([^\n]+)', r'\1\2.', text)`. -/
def subNumList (cs : List Char) : List Char := subNumListFuel cs.length cs

/-- The literal of the fourth substitution. -/
def engMeaning : List Char := "English meaning:".data

/-- Scanner for `re.sub(r'(English meaning:.*?)\n', r'\1. ', text)`
(utils.py 249), fuelled: at an occurrence of the literal the lazy `.*?`
(which cannot cross a newline) reaches the first following newline, which
the replacement turns into ". "; with no following newline the pattern
cannot match at this position.  (A nonempty `dropWhile (· ≠ newline)`
necessarily starts with the newline, so the cons arm is that newline.) -/
def subEngFuel : Nat → List Char → List Char
  | 0, cs => cs
  | _ + 1, [] => []
  | f + 1, c :: rest =>
    if startsWithL engMeaning (c :: rest) then
      match (List.drop engMeaning.length (c :: rest)).dropWhile (fun d => d ≠ '\n') with
      | _ :: rest3 =>
        engMeaning ++
          (List.drop engMeaning.length (c :: rest)).takeWhile (fun d => d ≠ '\n') ++
          '.' :: ' ' :: subEngFuel f rest3
      | [] => c :: subEngFuel f rest
    else c :: subEngFuel f rest

/-- Scanner for `re.sub(r'(English meaning:.*?)\n', r'\1. ', text)`. -/
def subEng (cs : List Char) : List Char := subEngFuel cs.length cs

/-- Scanner for `re.sub(r'\n\s*[\*\->]\s*', r'. ', text)` (utils.py 250),
fuelled; the class `[\*\->]` holds the escaped '*', the escaped '-' and
'>'; both `\s*` are greedy and unambiguous because the class characters
are not whitespace. -/
def subBulletFuel : Nat → List Char → List Char
  | 0, cs => cs
  | _ + 1, [] => []
  | f + 1, c :: rest =>
    if c = '\n' then
      match rest.dropWhile pyIsSpace with
      | d :: rest2 =>
        if d = '*' || d = '-' || d = '>' then
          '.' :: ' ' :: subBulletFuel f (rest2.dropWhile pyIsSpace)
        else c :: subBulletFuel f rest
      | [] => c :: subBulletFuel f rest
    else c :: subBulletFuel f rest

/-- Scanner for `re.sub(r'\n\s*[\*\->]\s*', r'. ', text)`. -/
def subBullet (cs : List Char) : List Char := subBulletFuel cs.length cs

/-- Scanner for `re.sub(r'\s{2,}', ' ', text)` (utils.py 251), fuelled:
a maximal whitespace run of length at least two collapses to one space. -/
def subWsFuel : Nat → List Char → List Char
  | 0, cs => cs
  | _ + 1, [] => []
  | f + 1, c :: rest =>
    if pyIsSpace c then
      match rest with
      | d :: _ =>
        if pyIsSpace d then ' ' :: subWsFuel f ((c :: rest).dropWhile pyIsSpace)
        else c :: subWsFuel f rest
      | [] => [c]
    else c :: subWsFuel f rest

/-- Scanner for `re.sub(r'\s{2,}', ' ', text)`. -/
def subWs (cs : List Char) : List Char := subWsFuel cs.length cs

/-- Python `text.replace('\n', ' ')`. -/
def replaceNl (l : List Char) : List Char :=
  l.map (fun c => if c = '\n' then ' ' else c)

/-- The whole pipeline of `clean_text_for_audio` on a character list. -/
def cleanForAudioL (preserveParentheses : Bool) (text : List Char) : List Char :=
  let t1 := subEmphasis text
  let t2 := if preserveParentheses then t1 else subParens t1
  let t3 := subNumList t2
  let t4 := subEng t3
  let t5 := subBullet t4
  let t6 := subWs t5
  pyStripL (replaceNl t6)

/-- Embeds `AudioProcessor.clean_text_for_audio` (utils.py 243-252).  The
Python default `preserve_parentheses=None` is falsy, so the default call
passes `false` here. -/
def clean_text_for_audio (text : String) (preserveParentheses : Bool) : String :=
  ⟨cleanForAudioL preserveParentheses text.data⟩

/-- Claim C1 is false as stated: a second application is not the identity
on the image.  Four independent ways: the numbered-list rule appends a
fresh period each time ("1.a" cleans to "1.a." and again to "1.a.."); a
deleted '*' can fuse two underscores or tildes into a pair that only the
second pass removes ("_*_" cleans to "__" and again to ""); and a
parenthetical spanning a newline survives the first pass (which only
replaces the newline by a space) and is deleted by the second
("(x\ny)" cleans to "(x y)" and again to ""). -/
theorem c1_counterexample :
    clean_text_for_audio (clean_text_for_audio "1.a" false) false ≠
      clean_text_for_audio "1.a" false ∧
    clean_text_for_audio (clean_text_for_audio "_*_" false) false ≠
      clean_text_for_audio "_*_" false ∧
    clean_text_for_audio (clean_text_for_audio "~*~" false) false ≠
      clean_text_for_audio "~*~" false ∧
    clean_text_for_audio (clean_text_for_audio "(x\ny)" false) false ≠
      clean_text_for_audio "(x\ny)" false := by
  decide


/-- Characters the amended idempotency statement excludes from the input:
digits, an opening parenthesis, underscores and tildes. -/
def plainChar (c : Char) : Prop :=
  c.isDigit = false ∧ c ≠ '(' ∧ c ≠ '_' ∧ c ≠ '~'

/-- Characters no cleaning rule other than whitespace handling reacts to:
plain, and none of the markers the first substitution always removes. -/
def inertChar (c : Char) : Prop :=
  plainChar c ∧ c ≠ '*' ∧ c ≠ '`' ∧ c ≠ '-'

/-- Adjacent characters are not both whitespace. -/
def SpacedApart (a b : Char) : Prop := ¬(pyIsSpace a = true ∧ pyIsSpace b = true)

/-- No two adjacent whitespace characters anywhere in the list. -/
def noDouble (l : List Char) : Prop := List.Chain' SpacedApart l

/-- Characters of the first substitution's output come from its input. -/
theorem subEmphasis_mem : ∀ (l : List Char), ∀ c ∈ subEmphasis l, c ∈ l
  | [] => by simp [subEmphasis]
  | [a] => by
    cases ha : (decide (a = '*') || decide (a = '`') || decide (a = '-')) <;>
      simp [subEmphasis, ha]
  | a :: b :: rest => by
    intro c hc
    cases ha : (decide (a = '*') || decide (a = '`') || decide (a = '-')) with
    | true =>
      simp only [subEmphasis, ha, if_true] at hc
      exact List.mem_cons_of_mem a (subEmphasis_mem (b :: rest) c hc)
    | false =>
      cases hab : ((decide (a = '_') && decide (b = '_')) ||
          (decide (a = '~') && decide (b = '~'))) with
      | true =>
        simp only [subEmphasis, ha, hab, Bool.false_eq_true, if_true, if_false] at hc
        exact List.mem_cons_of_mem a (List.mem_cons_of_mem b (subEmphasis_mem rest c hc))
      | false =>
        simp only [subEmphasis, ha, hab, Bool.false_eq_true, if_false] at hc
        rcases List.mem_cons.mp hc with rfl | hc'
        · exact List.mem_cons_self c (b :: rest)
        · exact List.mem_cons_of_mem a (subEmphasis_mem (b :: rest) c hc')
termination_by l => l.length

/-- The first substitution's output holds no '*', '`' or '-'. -/
theorem subEmphasis_special : ∀ (l : List Char), ∀ c ∈ subEmphasis l,
    c ≠ '*' ∧ c ≠ '`' ∧ c ≠ '-'
  | [] => by simp [subEmphasis]
  | [a] => by
    intro c hc
    cases ha : (decide (a = '*') || decide (a = '`') || decide (a = '-')) with
    | true => simp [subEmphasis, ha] at hc
    | false =>
      simp only [subEmphasis, ha, Bool.false_eq_true, if_false,
        List.mem_singleton] at hc
      subst hc
      simp only [Bool.or_eq_false_iff, decide_eq_false_iff_not] at ha
      exact ⟨ha.1.1, ha.1.2, ha.2⟩
  | a :: b :: rest => by
    intro c hc
    cases ha : (decide (a = '*') || decide (a = '`') || decide (a = '-')) with
    | true =>
      simp only [subEmphasis, ha, if_true] at hc
      exact subEmphasis_special (b :: rest) c hc
    | false =>
      cases hab : ((decide (a = '_') && decide (b = '_')) ||
          (decide (a = '~') && decide (b = '~'))) with
      | true =>
        simp only [subEmphasis, ha, hab, Bool.false_eq_true, if_true, if_false] at hc
        exact subEmphasis_special rest c hc
      | false =>
        simp only [subEmphasis, ha, hab, Bool.false_eq_true, if_false] at hc
        rcases List.mem_cons.mp hc with rfl | hc'
        · simp only [Bool.or_eq_false_iff, decide_eq_false_iff_not] at ha
          exact ⟨ha.1.1, ha.1.2, ha.2⟩
        · exact subEmphasis_special (b :: rest) c hc'
termination_by l => l.length

/-- The first substitution is the identity on marker-free input. -/
theorem subEmphasis_id : ∀ (l : List Char), (∀ c ∈ l, inertChar c) →
    subEmphasis l = l
  | [], _ => rfl
  | [a], h => by
    have hai := h a (List.mem_singleton.mpr rfl)
    have ha : (decide (a = '*') || decide (a = '`') || decide (a = '-')) = false := by
      simp only [Bool.or_eq_false_iff, decide_eq_false_iff_not]
      exact ⟨⟨hai.2.1, hai.2.2.1⟩, hai.2.2.2⟩
    simp [subEmphasis, ha]
  | a :: b :: rest, h => by
    have hai := h a (List.mem_cons_self a (b :: rest))
    have ha : (decide (a = '*') || decide (a = '`') || decide (a = '-')) = false := by
      simp only [Bool.or_eq_false_iff, decide_eq_false_iff_not]
      exact ⟨⟨hai.2.1, hai.2.2.1⟩, hai.2.2.2⟩
    have hab : ((decide (a = '_') && decide (b = '_')) ||
        (decide (a = '~') && decide (b = '~'))) = false := by
      simp only [Bool.or_eq_false_iff, Bool.and_eq_false_iff, decide_eq_false_iff_not]
      exact ⟨Or.inl hai.1.2.2.1, Or.inl hai.1.2.2.2⟩
    simp only [subEmphasis, ha, hab, Bool.false_eq_true, if_false]
    rw [subEmphasis_id (b :: rest) (fun c hc => h c (List.mem_cons_of_mem a hc))]
termination_by l => l.length

/-- The parenthesis substitution is the identity without '('. -/
theorem subParensFuel_id : ∀ (f : Nat) (l : List Char), (∀ c ∈ l, c ≠ '(') →
    subParensFuel f l = l
  | 0, _, _ => rfl
  | _ + 1, [], _ => rfl
  | f + 1, c :: rest, h => by
    have hc : ¬ c = '(' := h c (List.mem_cons_self c rest)
    simp only [subParensFuel, if_neg hc]
    rw [subParensFuel_id f rest (fun d hd => h d (List.mem_cons_of_mem c hd))]

/-- The numbered-list substitution is the identity without digits. -/
theorem subNumListFuel_id : ∀ (f : Nat) (l : List Char),
    (∀ c ∈ l, c.isDigit = false) → subNumListFuel f l = l
  | 0, _, _ => rfl
  | _ + 1, [], _ => rfl
  | f + 1, c :: rest, h => by
    have hc : c.isDigit = false := h c (List.mem_cons_self c rest)
    simp only [subNumListFuel, hc, Bool.false_eq_true, if_false]
    rw [subNumListFuel_id f rest (fun d hd => h d (List.mem_cons_of_mem c hd))]

/-- A matched prefix is made of characters of the list. -/
theorem startsWithL_mem : ∀ (p l : List Char), startsWithL p l = true →
    ∀ c ∈ p, c ∈ l
  | [], _, _ => by simp
  | _ :: _, [], h => by simp [startsWithL] at h
  | a :: ps, b :: cs, h => by
    simp only [startsWithL, Bool.and_eq_true, decide_eq_true_eq] at h
    intro c hc
    rcases List.mem_cons.mp hc with rfl | hc'
    · rw [h.1]
      exact List.mem_cons_self b cs
    · exact List.mem_cons_of_mem b (startsWithL_mem ps cs h.2 c hc')

/-- The "English meaning" substitution is the identity without newlines. -/
theorem subEngFuel_id : ∀ (f : Nat) (l : List Char), (∀ c ∈ l, c ≠ '\n') →
    subEngFuel f l = l
  | 0, _, _ => rfl
  | _ + 1, [], _ => rfl
  | f + 1, c :: rest, h => by
    have hrec : subEngFuel f rest = rest :=
      subEngFuel_id f rest (fun d hd => h d (List.mem_cons_of_mem c hd))
    by_cases hs : startsWithL engMeaning (c :: rest) = true
    · have hnil : (List.drop engMeaning.length (c :: rest)).dropWhile
          (fun d => decide (d ≠ '\n')) = [] := by
        rw [List.dropWhile_eq_nil_iff]
        intro x hx
        have hxl : x ∈ c :: rest := (List.drop_sublist _ _).mem hx
        simpa using h x hxl
      simp only [subEngFuel, hs, if_true, hnil]
      rw [hrec]
    · simp only [subEngFuel]
      rw [if_neg hs, hrec]

/-- The bullet substitution is the identity without newlines. -/
theorem subBulletFuel_id : ∀ (f : Nat) (l : List Char), (∀ c ∈ l, c ≠ '\n') →
    subBulletFuel f l = l
  | 0, _, _ => rfl
  | _ + 1, [], _ => rfl
  | f + 1, c :: rest, h => by
    have hc : ¬ c = '\n' := h c (List.mem_cons_self c rest)
    simp only [subBulletFuel, if_neg hc]
    rw [subBulletFuel_id f rest (fun d hd => h d (List.mem_cons_of_mem c hd))]


/-- The head of a nonempty `dropWhile` fails the predicate. -/
theorem dropWhile_head_false : ∀ (p : Char → Bool) (l : List Char) (e : Char)
    (tl : List Char), l.dropWhile p = e :: tl → p e = false
  | p, [], e, tl, h => by simp at h
  | p, a :: rest, e, tl, h => by
    rw [List.dropWhile_cons] at h
    by_cases hp : p a = true
    · rw [if_pos hp] at h
      exact dropWhile_head_false p rest e tl h
    · rw [if_neg hp] at h
      cases h
      simpa using hp

/-- `dropWhile` is the identity when the head fails the predicate. -/
theorem dropWhile_eq_self (p : Char → Bool) (l : List Char)
    (h : ∀ c, l.head? = some c → p c = false) : l.dropWhile p = l := by
  rcases l with _ | ⟨a, rest⟩
  · rfl
  · rw [List.dropWhile_cons, if_neg (by simp [h a rfl])]

/-- Characters of the "English meaning" substitution's output come from
its input, up to inserted periods and spaces. -/
theorem subEngFuel_chars : ∀ (f : Nat) (l : List Char), ∀ c ∈ subEngFuel f l,
    c ∈ l ∨ c = '.' ∨ c = ' '
  | 0, _, _, hc => Or.inl hc
  | _ + 1, [], _, hc => Or.inl hc
  | f + 1, a :: rest, c, hc => by
    by_cases hs : startsWithL engMeaning (a :: rest) = true
    · simp only [subEngFuel, hs, if_true] at hc
      rcases hm : (List.drop engMeaning.length (a :: rest)).dropWhile
          (fun d => decide (d ≠ '\n')) with _ | ⟨e, rest3⟩
      · rw [hm] at hc
        rcases List.mem_cons.mp hc with rfl | hc'
        · exact Or.inl (List.mem_cons_self _ _)
        · rcases subEngFuel_chars f rest c hc' with h1 | h2
          · exact Or.inl (List.mem_cons_of_mem a h1)
          · exact Or.inr h2
      · rw [hm] at hc
        rcases List.mem_append.mp hc with hm12 | hm3
        · rcases List.mem_append.mp hm12 with hlit | htake
          · exact Or.inl (startsWithL_mem engMeaning (a :: rest) hs c hlit)
          · exact Or.inl
              (((List.takeWhile_sublist _).trans (List.drop_sublist _ _)).mem htake)
        · rcases List.mem_cons.mp hm3 with rfl | hm4
          · exact Or.inr (Or.inl rfl)
          · rcases List.mem_cons.mp hm4 with rfl | hm5
            · exact Or.inr (Or.inr rfl)
            · rcases subEngFuel_chars f rest3 c hm5 with h1 | h2
              · have hdw : List.Sublist (e :: rest3)
                    (List.drop engMeaning.length (a :: rest)) := by
                  rw [← hm]
                  exact (List.dropWhile_suffix _).sublist
                have hsub : List.Sublist rest3 (a :: rest) :=
                  ((List.sublist_cons_self e rest3).trans hdw).trans
                    (List.drop_sublist _ _)
                exact Or.inl (hsub.mem h1)
              · exact Or.inr h2
    · simp only [subEngFuel] at hc
      rw [if_neg hs] at hc
      rcases List.mem_cons.mp hc with rfl | hc'
      · exact Or.inl (List.mem_cons_self _ _)
      · rcases subEngFuel_chars f rest c hc' with h1 | h2
        · exact Or.inl (List.mem_cons_of_mem a h1)
        · exact Or.inr h2

/-- Characters of the bullet substitution's output come from its input, up
to inserted periods and spaces. -/
theorem subBulletFuel_chars : ∀ (f : Nat) (l : List Char), ∀ c ∈ subBulletFuel f l,
    c ∈ l ∨ c = '.' ∨ c = ' '
  | 0, _, _, hc => Or.inl hc
  | _ + 1, [], _, hc => Or.inl hc
  | f + 1, a :: rest, c, hc => by
    by_cases ha : a = '\n'
    · simp only [subBulletFuel] at hc
      rw [if_pos ha] at hc
      rcases hm : rest.dropWhile pyIsSpace with _ | ⟨d, rest2⟩
      · simp only [hm] at hc
        rcases List.mem_cons.mp hc with rfl | hc'
        · exact Or.inl (List.mem_cons_self _ _)
        · rcases subBulletFuel_chars f rest c hc' with h1 | h2
          · exact Or.inl (List.mem_cons_of_mem a h1)
          · exact Or.inr h2
      · simp only [hm] at hc
        by_cases hd : (d = '*' || d = '-' || d = '>') = true
        · rw [if_pos hd] at hc
          rcases List.mem_cons.mp hc with rfl | hc2
          · exact Or.inr (Or.inl rfl)
          · rcases List.mem_cons.mp hc2 with rfl | hc3
            · exact Or.inr (Or.inr rfl)
            · rcases subBulletFuel_chars f _ c hc3 with h1 | h2
              · have hdw : List.Sublist (d :: rest2) rest := by
                  rw [← hm]
                  exact (List.dropWhile_suffix _).sublist
                have hsub : List.Sublist (rest2.dropWhile pyIsSpace) (a :: rest) :=
                  (((List.dropWhile_suffix pyIsSpace).sublist.trans
                    (List.sublist_cons_self d rest2)).trans hdw).trans
                    (List.sublist_cons_self a rest)
                exact Or.inl (hsub.mem h1)
              · exact Or.inr h2
        · rw [if_neg hd] at hc
          rcases List.mem_cons.mp hc with rfl | hc'
          · exact Or.inl (List.mem_cons_self _ _)
          · rcases subBulletFuel_chars f rest c hc' with h1 | h2
            · exact Or.inl (List.mem_cons_of_mem a h1)
            · exact Or.inr h2
    · simp only [subBulletFuel] at hc
      rw [if_neg ha] at hc
      rcases List.mem_cons.mp hc with rfl | hc'
      · exact Or.inl (List.mem_cons_self _ _)
      · rcases subBulletFuel_chars f rest c hc' with h1 | h2
        · exact Or.inl (List.mem_cons_of_mem a h1)
        · exact Or.inr h2

/-- Characters of the whitespace-collapsing substitution's output come
from its input, up to inserted spaces. -/
theorem subWsFuel_chars : ∀ (f : Nat) (l : List Char), ∀ c ∈ subWsFuel f l,
    c ∈ l ∨ c = ' '
  | 0, _, _, hc => Or.inl hc
  | _ + 1, [], _, hc => Or.inl hc
  | f + 1, a :: rest, c, hc => by
    by_cases ha : pyIsSpace a = true
    · rcases rest with _ | ⟨d, rest'⟩
      · simp only [subWsFuel, ha, if_true] at hc
        exact Or.inl hc
      · by_cases hd : pyIsSpace d = true
        · simp only [subWsFuel, ha, hd, if_true] at hc
          rcases List.mem_cons.mp hc with rfl | hc'
          · exact Or.inr rfl
          · rcases subWsFuel_chars f _ c hc' with h1 | h2
            · exact Or.inl ((List.dropWhile_suffix pyIsSpace).sublist.mem h1)
            · exact Or.inr h2
        · simp only [subWsFuel, ha, hd, Bool.false_eq_true, if_true, if_false] at hc
          rcases List.mem_cons.mp hc with rfl | hc'
          · exact Or.inl (List.mem_cons_self _ _)
          · rcases subWsFuel_chars f _ c hc' with h1 | h2
            · exact Or.inl (List.mem_cons_of_mem a h1)
            · exact Or.inr h2
    · simp only [subWsFuel, ha, Bool.false_eq_true, if_false] at hc
      rcases List.mem_cons.mp hc with rfl | hc'
      · exact Or.inl (List.mem_cons_self _ _)
      · rcases subWsFuel_chars f rest c hc' with h1 | h2
        · exact Or.inl (List.mem_cons_of_mem a h1)
        · exact Or.inr h2

/-- The whitespace-collapsing substitution keeps a non-whitespace head. -/
theorem subWsFuel_head : ∀ (f : Nat) (d : Char) (rest : List Char),
    pyIsSpace d = false → ∃ tl, subWsFuel f (d :: rest) = d :: tl
  | 0, _, rest, _ => ⟨rest, rfl⟩
  | f + 1, d, rest, hd =>
    ⟨subWsFuel f rest, by simp only [subWsFuel, hd, Bool.false_eq_true, if_false]⟩

/-- The whitespace-collapsing substitution's output has no two adjacent
whitespace characters (with fuel at least the length). -/
theorem subWsFuel_noDouble : ∀ (f : Nat) (l : List Char), l.length ≤ f →
    noDouble (subWsFuel f l)
  | 0, l, h => by
    have : l = [] := List.eq_nil_of_length_eq_zero (Nat.le_zero.mp h)
    subst this
    exact List.chain'_nil
  | _ + 1, [], _ => List.chain'_nil
  | f + 1, a :: rest, h => by
    by_cases ha : pyIsSpace a = true
    · rcases rest with _ | ⟨d, rest'⟩
      · simp only [subWsFuel, ha, if_true]
        exact List.chain'_singleton a
      · by_cases hd : pyIsSpace d = true
        · simp only [subWsFuel, ha, hd, if_true]
          have hL' : List.dropWhile pyIsSpace (a :: d :: rest') =
              List.dropWhile pyIsSpace rest' := by
            rw [List.dropWhile_cons, if_pos ha, List.dropWhile_cons, if_pos hd]
          have hlen : (List.dropWhile pyIsSpace (a :: d :: rest')).length ≤ f := by
            rw [hL']
            have hle := (List.dropWhile_suffix (l := rest') pyIsSpace).sublist.length_le
            simp only [List.length_cons] at h
            omega
          refine List.chain'_cons'.mpr ⟨?_, subWsFuel_noDouble f _ hlen⟩
          intro y hy
          rcases hL : List.dropWhile pyIsSpace (a :: d :: rest') with _ | ⟨e, tl⟩
          · rw [hL] at hy
            cases f <;> simp [subWsFuel] at hy
          · have he : pyIsSpace e = false := dropWhile_head_false pyIsSpace _ e tl hL
            rcases subWsFuel_head f e tl he with ⟨tl2, htl2⟩
            rw [hL, htl2] at hy
            simp only [List.head?_cons, Option.mem_def, Option.some.injEq] at hy
            subst hy
            rintro ⟨-, hcon⟩
            rw [he] at hcon
            exact absurd hcon (by simp)
        · simp only [subWsFuel, ha, hd, Bool.false_eq_true, if_true, if_false]
          have hlen : (d :: rest').length ≤ f := by
            simp only [List.length_cons] at h ⊢
            omega
          refine List.chain'_cons'.mpr ⟨?_, subWsFuel_noDouble f _ hlen⟩
          intro y hy
          rcases subWsFuel_head f d rest' (by simpa using hd) with ⟨tl2, htl2⟩
          rw [htl2] at hy
          simp only [List.head?_cons, Option.mem_def, Option.some.injEq] at hy
          subst hy
          rintro ⟨-, hcon⟩
          exact hd hcon
    · simp only [subWsFuel, ha, Bool.false_eq_true, if_false]
      have hlen : rest.length ≤ f := by
        simp only [List.length_cons] at h
        omega
      refine List.chain'_cons'.mpr ⟨?_, subWsFuel_noDouble f rest hlen⟩
      intro y _
      rintro ⟨hcon, -⟩
      exact ha hcon

/-- The whitespace-collapsing substitution is the identity on lists with
no two adjacent whitespace characters. -/
theorem subWsFuel_id : ∀ (f : Nat) (l : List Char), noDouble l → subWsFuel f l = l
  | 0, _, _ => rfl
  | _ + 1, [], _ => rfl
  | f + 1, a :: rest, h => by
    by_cases ha : pyIsSpace a = true
    · rcases rest with _ | ⟨d, rest'⟩
      · simp [subWsFuel, ha]
      · have hrel := (List.chain'_cons.mp h).1
        have hd : pyIsSpace d = false := by
          rcases hdd : pyIsSpace d
          · rfl
          · exact absurd ⟨ha, hdd⟩ hrel
        simp only [subWsFuel, ha, hd, Bool.false_eq_true, if_true, if_false]
        rw [subWsFuel_id f (d :: rest') (List.chain'_cons.mp h).2]
    · simp only [subWsFuel, ha, Bool.false_eq_true, if_false]
      rw [subWsFuel_id f rest h.tail]

/-- `replace('\n', ' ')` only turns characters into spaces. -/
theorem replaceNl_chars (l : List Char) : ∀ c ∈ replaceNl l, c ∈ l ∨ c = ' ' := by
  intro c hc
  rcases List.mem_map.mp hc with ⟨x, hx, hfx⟩
  by_cases hnl : x = '\n'
  · right
    rw [← hfx, if_pos hnl]
  · left
    rw [← hfx, if_neg hnl]
    exact hx

/-- `replace('\n', ' ')` leaves no newline. -/
theorem replaceNl_no_nl (l : List Char) : ∀ c ∈ replaceNl l, c ≠ '\n' := by
  intro c hc
  rcases List.mem_map.mp hc with ⟨x, _, hfx⟩
  by_cases hnl : x = '\n'
  · rw [← hfx, if_pos hnl]
    decide
  · rw [← hfx, if_neg hnl]
    exact hnl

/-- `replace('\n', ' ')` is the identity without newlines. -/
theorem replaceNl_id (l : List Char) (h : ∀ c ∈ l, c ≠ '\n') : replaceNl l = l := by
  induction l with
  | nil => rfl
  | cons a rest ih =>
    simp only [replaceNl, List.map_cons]
    rw [if_neg (h a (List.mem_cons_self a rest))]
    have := ih (fun c hc => h c (List.mem_cons_of_mem a hc))
    simp only [replaceNl] at this
    rw [this]

/-- Whitespace status survives the newline replacement. -/
theorem pyIsSpace_replChar (c : Char) :
    pyIsSpace (if c = '\n' then ' ' else c) = pyIsSpace c := by
  by_cases h : c = '\n'
  · subst h
    decide
  · rw [if_neg h]

/-- `replace('\n', ' ')` preserves the no-adjacent-whitespace property. -/
theorem replaceNl_noDouble (l : List Char) (h : noDouble l) :
    noDouble (replaceNl l) := by
  unfold replaceNl noDouble
  rw [List.chain'_map]
  refine h.imp ?_
  intro a b hab
  unfold SpacedApart at hab ⊢
  rw [pyIsSpace_replChar, pyIsSpace_replChar]
  exact hab

/-- Stripping yields an infix of the original list. -/
theorem pyStripL_infixOf (l : List Char) : pyStripL l <:+: l := by
  unfold pyStripL
  have h1 : l.dropWhile pyIsSpace <:+ l := List.dropWhile_suffix pyIsSpace
  have h2 : ((l.dropWhile pyIsSpace).reverse.dropWhile pyIsSpace) <:+
      (l.dropWhile pyIsSpace).reverse := List.dropWhile_suffix pyIsSpace
  have h3 : ((l.dropWhile pyIsSpace).reverse.dropWhile pyIsSpace).reverse <+:
      l.dropWhile pyIsSpace := by
    apply List.reverse_suffix.mp
    rw [List.reverse_reverse]
    exact h2
  exact h3.isInfix.trans h1.isInfix

/-- Characters of the stripped list come from the original list. -/
theorem pyStripL_mem (l : List Char) : ∀ c ∈ pyStripL l, c ∈ l :=
  fun _ hc => (pyStripL_infixOf l).sublist.mem hc

/-- Stripping preserves the no-adjacent-whitespace property. -/
theorem pyStripL_noDouble (l : List Char) (h : noDouble l) :
    noDouble (pyStripL l) := h.infix (pyStripL_infixOf l)

/-- Suffixes share the last element. -/
theorem getLast?_of_suffix (l₁ l₂ : List Char) (h : l₁ <:+ l₂) (hne : l₁ ≠ []) :
    l₂.getLast? = l₁.getLast? := by
  rcases h with ⟨t, rfl⟩
  exact List.getLast?_append_of_ne_nil t hne

/-- The first character of a stripped list is not whitespace. -/
theorem head?_pyStripL (l : List Char) :
    ∀ c, (pyStripL l).head? = some c → pyIsSpace c = false := by
  intro c hc
  unfold pyStripL at hc
  rw [List.head?_reverse] at hc
  rcases hw : (l.dropWhile pyIsSpace).reverse.dropWhile pyIsSpace with _ | ⟨e, tl⟩
  · rw [hw] at hc
    simp at hc
  · have hsfx : (l.dropWhile pyIsSpace).reverse.dropWhile pyIsSpace <:+
        (l.dropWhile pyIsSpace).reverse := List.dropWhile_suffix pyIsSpace
    have hlast : (l.dropWhile pyIsSpace).reverse.getLast? =
        ((l.dropWhile pyIsSpace).reverse.dropWhile pyIsSpace).getLast? :=
      getLast?_of_suffix _ _ hsfx (by rw [hw]; simp)
    rw [hw] at hc
    have h2 : (l.dropWhile pyIsSpace).reverse.getLast? = some c := by
      rw [hlast, hw]
      exact hc
    rw [List.getLast?_reverse] at h2
    rcases hme : l.dropWhile pyIsSpace with _ | ⟨x, xs⟩
    · rw [hme] at h2
      simp at h2
    · rw [hme] at h2
      simp only [List.head?_cons, Option.some.injEq] at h2
      subst h2
      exact dropWhile_head_false pyIsSpace l x xs hme

/-- The last character of a stripped list is not whitespace. -/
theorem getLast?_pyStripL (l : List Char) :
    ∀ c, (pyStripL l).getLast? = some c → pyIsSpace c = false := by
  intro c hc
  unfold pyStripL at hc
  rw [List.getLast?_reverse] at hc
  rcases hw : (l.dropWhile pyIsSpace).reverse.dropWhile pyIsSpace with _ | ⟨e, tl⟩
  · rw [hw] at hc
    simp at hc
  · rw [hw] at hc
    simp only [List.head?_cons, Option.some.injEq] at hc
    subst hc
    exact dropWhile_head_false pyIsSpace _ e tl hw

/-- Stripping is the identity when both ends are not whitespace. -/
theorem pyStripL_self (l : List Char)
    (h1 : ∀ c, l.head? = some c → pyIsSpace c = false)
    (h2 : ∀ c, l.getLast? = some c → pyIsSpace c = false) : pyStripL l = l := by
  unfold pyStripL
  rw [dropWhile_eq_self pyIsSpace l h1]
  have hd2 : l.reverse.dropWhile pyIsSpace = l.reverse := by
    apply dropWhile_eq_self
    intro c hc
    rw [List.head?_reverse] at hc
    exact h2 c hc
  rw [hd2, List.reverse_reverse]

/-- Stripping is idempotent. -/
theorem pyStripL_idem (l : List Char) : pyStripL (pyStripL l) = pyStripL l :=
  pyStripL_self (pyStripL l) (head?_pyStripL l) (getLast?_pyStripL l)


/-- Periods are inert for every cleaning rule. -/
theorem inertChar_dot : inertChar '.' := by
  unfold inertChar plainChar
  refine ⟨⟨?_, ?_, ?_, ?_⟩, ?_, ?_, ?_⟩ <;> decide

/-- Spaces are inert for every cleaning rule. -/
theorem inertChar_space : inertChar ' ' := by
  unfold inertChar plainChar
  refine ⟨⟨?_, ?_, ?_, ?_⟩, ?_, ?_, ?_⟩ <;> decide

instance : DecidablePred plainChar := fun c => by
  unfold plainChar
  infer_instance

/-- Idempotency of the cleaning pipeline on plain input, at list level:
after one pass every character is inert (the emphasis markers are gone and
the input had no digits, parentheses, underscores or tildes), no newline
survives the final replacement, the whitespace runs are collapsed and the
ends are stripped — so every rule of the second pass is the identity. -/
theorem cleanForAudioL_idem (l : List Char) (h : ∀ c ∈ l, plainChar c) :
    cleanForAudioL false (cleanForAudioL false l) = cleanForAudioL false l := by
  have hmem : ∀ c ∈ subEmphasis l, plainChar c :=
    fun c hc => h c (subEmphasis_mem l c hc)
  have hinert : ∀ c ∈ subEmphasis l, inertChar c := fun c hc =>
    ⟨hmem c hc, (subEmphasis_special l c hc).1, (subEmphasis_special l c hc).2.1,
      (subEmphasis_special l c hc).2.2⟩
  have hparen1 : subParens (subEmphasis l) = subEmphasis l :=
    subParensFuel_id _ _ (fun c hc => (hmem c hc).2.1)
  have hnum1 : subNumList (subEmphasis l) = subEmphasis l :=
    subNumListFuel_id _ _ (fun c hc => (hmem c hc).1)
  have hclean1 : cleanForAudioL false l =
      pyStripL (replaceNl (subWs (subBullet (subEng (subEmphasis l))))) := by
    simp only [cleanForAudioL, Bool.false_eq_true, if_false, hparen1, hnum1]
  have hbchars : ∀ c ∈ subWs (subBullet (subEng (subEmphasis l))), inertChar c := by
    intro c hc
    rcases subWsFuel_chars _ _ c hc with h1 | h2
    · rcases subBulletFuel_chars _ _ c h1 with h3 | h4
      · rcases subEngFuel_chars _ _ c h3 with h5 | h6
        · exact hinert c h5
        · rcases h6 with rfl | rfl
          · exact inertChar_dot
          · exact inertChar_space
      · rcases h4 with rfl | rfl
        · exact inertChar_dot
        · exact inertChar_space
    · rw [h2]
      exact inertChar_space
  have hcchars : ∀ c ∈
      pyStripL (replaceNl (subWs (subBullet (subEng (subEmphasis l))))),
      inertChar c := by
    intro c hc
    rcases replaceNl_chars _ c (pyStripL_mem _ c hc) with h1 | h2
    · exact hbchars c h1
    · rw [h2]
      exact inertChar_space
  have hcnl : ∀ c ∈
      pyStripL (replaceNl (subWs (subBullet (subEng (subEmphasis l))))),
      c ≠ '\n' :=
    fun c hc => replaceNl_no_nl _ c (pyStripL_mem _ c hc)
  have hbnd : noDouble (subWs (subBullet (subEng (subEmphasis l)))) :=
    subWsFuel_noDouble _ _ (Nat.le_refl _)
  have hcnd : noDouble
      (pyStripL (replaceNl (subWs (subBullet (subEng (subEmphasis l)))))) :=
    pyStripL_noDouble _ (replaceNl_noDouble _ hbnd)
  have e1 := subEmphasis_id _ hcchars
  have e2 := subParensFuel_id
    (pyStripL (replaceNl (subWs (subBullet (subEng (subEmphasis l)))))).length _
    (fun x hx => (hcchars x hx).1.2.1)
  have e3 := subNumListFuel_id
    (pyStripL (replaceNl (subWs (subBullet (subEng (subEmphasis l)))))).length _
    (fun x hx => (hcchars x hx).1.1)
  have e4 := subEngFuel_id
    (pyStripL (replaceNl (subWs (subBullet (subEng (subEmphasis l)))))).length _
    hcnl
  have e5 := subBulletFuel_id
    (pyStripL (replaceNl (subWs (subBullet (subEng (subEmphasis l)))))).length _
    hcnl
  have e6 := subWsFuel_id
    (pyStripL (replaceNl (subWs (subBullet (subEng (subEmphasis l)))))).length _
    hcnd
  have e7 := replaceNl_id _ hcnl
  have e8 := pyStripL_idem (replaceNl (subWs (subBullet (subEng (subEmphasis l)))))
  have e2w : subParens
      (pyStripL (replaceNl (subWs (subBullet (subEng (subEmphasis l)))))) =
      pyStripL (replaceNl (subWs (subBullet (subEng (subEmphasis l))))) := e2
  have e3w : subNumList
      (pyStripL (replaceNl (subWs (subBullet (subEng (subEmphasis l)))))) =
      pyStripL (replaceNl (subWs (subBullet (subEng (subEmphasis l))))) := e3
  have e4w : subEng
      (pyStripL (replaceNl (subWs (subBullet (subEng (subEmphasis l)))))) =
      pyStripL (replaceNl (subWs (subBullet (subEng (subEmphasis l))))) := e4
  have e5w : subBullet
      (pyStripL (replaceNl (subWs (subBullet (subEng (subEmphasis l)))))) =
      pyStripL (replaceNl (subWs (subBullet (subEng (subEmphasis l))))) := e5
  have e6w : subWs
      (pyStripL (replaceNl (subWs (subBullet (subEng (subEmphasis l)))))) =
      pyStripL (replaceNl (subWs (subBullet (subEng (subEmphasis l))))) := e6
  rw [hclean1]
  simp only [cleanForAudioL, Bool.false_eq_true, if_false]
  rw [e1, e2w, e3w, e4w, e5w, e6w, e7, e8]

/-- Claim C1 (amended): `clean_text_for_audio` is not idempotent in
general; it is idempotent on every input containing no decimal digit, no
opening parenthesis, no underscore and no tilde (the counterexamples show
each of these exclusions is needed: the numbered-list rule appends a
period on every pass, and removing markers or newlines can assemble a new
"__"/"~~" pair or parenthetical that only the next pass deletes). -/
theorem c1_theorem (t : String) (h : ∀ c ∈ t.data, plainChar c) :
    clean_text_for_audio (clean_text_for_audio t false) false =
      clean_text_for_audio t false := by
  unfold clean_text_for_audio
  exact congrArg String.mk (cleanForAudioL_idem t.data h)

/-- Witness for C1's amended theorem on a concrete plain input. -/
theorem c1_witness :
    (∀ c ∈ ("hello  world\n> ok" : String).data, plainChar c) ∧
    clean_text_for_audio (clean_text_for_audio "hello  world\n> ok" false) false =
      clean_text_for_audio "hello  world\n> ok" false := by
  refine ⟨by decide, ?_⟩
  exact c1_theorem "hello  world\n> ok" (by decide)


/-! ### `clean_response_text` (main.py 58-125) -/

/-- The fixed reasoning-phrase list (main.py 71-77). -/
def thought_patterns : List String :=
  ["thought:", "i need to", "i should", "i must", "i will", "let me think",
   "my goal is", "my task is", "i am tasked", "oh dear", "it seems",
   "my apologies", "i tried to", "i made a mistake", "i need to remember",
   "since the student", "let me", "i\x27ll maintain", "keeping in mind",
   "let\x27s break down"]

/-- The fixed reasoning-prefix list (main.py 90-93). -/
def reasoning_prefixes : List String :=
  ["thought:", "i need", "i should", "i must", "i will", "let me",
   "my goal", "my task", "oh dear", "it seems", "since the", "keeping"]

/-- Split on every newline, Python `s.split('\n')` (keeps empty pieces). -/
def splitNlL : List Char → List (List Char)
  | [] => [[]]
  | c :: rest =>
    match splitNlL rest with
    | [] => [[c]]
    | h :: t => if c = '\n' then [] :: h :: t else (c :: h) :: t

/-- Join with newlines, Python `'\n'.join(lines)`. -/
def joinNl : List (List Char) → List Char
  | [] => []
  | [l] => l
  | l :: rest => l ++ '\n' :: joinNl rest

/-- Split on a fixed separator, leftmost non-overlapping, Python
`s.split(sep)` for a nonempty separator (fuelled). -/
def splitOnSubFuel (sep : List Char) : Nat → List Char → List (List Char)
  | 0, cs => [cs]
  | _ + 1, [] => [[]]
  | f + 1, c :: cs =>
    if startsWithL sep (c :: cs) then
      [] :: splitOnSubFuel sep f (List.drop sep.length (c :: cs))
    else
      match splitOnSubFuel sep f cs with
      | [] => [[c]]
      | h :: t => (c :: h) :: t

/-- Split on a fixed nonempty separator. -/
def splitOnSub (sep l : List Char) : List (List Char) :=
  splitOnSubFuel sep l.length l

/-- Is a stripped, nonempty line kept by the line filter of
`clean_response_text` (main.py 79-96)?  Neither a reasoning phrase inside
nor a reasoning prefix at the start of its lowercase. -/
def lineKept (line : List Char) : Bool :=
  !(thought_patterns.any (fun p => isSubstrL p.data (lowerL line))) &&
    !(reasoning_prefixes.any (fun p => startsWithL p.data (lowerL line)))

/-- Case-insensitive prefix test against an already-lowercase pattern. -/
def startsWithCI : List Char → List Char → Bool
  | [], _ => true
  | _ :: _, [] => false
  | p :: ps, c :: cs => p = c.toLower && startsWithCI ps cs

/-- A word character of the regex `\b` boundary (ASCII `\w`). -/
def isWordChar (c : Char) : Bool := c.isAlpha || c.isDigit || c = '_'

/-- The lowercase literal of the two residual-marker substitutions. -/
def thoughtColon : List Char := "thought:".data

/-- The lowercase literal of the word-boundary substitution. -/
def thoughtWord : List Char := "thought".data

/-- Scanner for `re.sub(r'Thought:\s*', '', cleaned, flags=IGNORECASE)`
(main.py 102), fuelled: the literal (case-insensitively) plus the greedy
whitespace run after it are removed. -/
def subThoughtColonFuel : Nat → List Char → List Char
  | 0, cs => cs
  | _ + 1, [] => []
  | f + 1, c :: rest =>
    if startsWithCI thoughtColon (c :: rest) then
      subThoughtColonFuel f
        ((List.drop thoughtColon.length (c :: rest)).dropWhile pyIsSpace)
    else c :: subThoughtColonFuel f rest

/-- Scanner for `re.sub(r'Thought:\s*', '', cleaned, flags=IGNORECASE)`. -/
def subThoughtColon (cs : List Char) : List Char :=
  subThoughtColonFuel cs.length cs

/-- Scanner for `re.sub(r'\bThought\b[:\s]*', '', cleaned, flags=IGNORECASE)`
(main.py 103), fuelled.  The left boundary compares with the previous
character of the original scan (`none` at the start of the string; after a
removed match the previous character is the last consumed one, which is
never a word character when the `[:\s]*` run is nonempty and is the
literal's 't' otherwise); the right boundary requires the character after
the literal to be absent or not a word character. -/
def subThoughtWordFuel : Nat → Option Char → List Char → List Char
  | 0, _, cs => cs
  | _ + 1, _, [] => []
  | f + 1, prev, c :: rest =>
    if (match prev with
        | none => true
        | some p => !isWordChar p) &&
        startsWithCI thoughtWord (c :: rest) &&
        (match List.drop thoughtWord.length (c :: rest) with
         | [] => true
         | d :: _ => !isWordChar d) then
      subThoughtWordFuel f
        (some (((List.drop thoughtWord.length (c :: rest)).takeWhile
          (fun d => d = ':' || pyIsSpace d)).getLast?.getD 't'))
        ((List.drop thoughtWord.length (c :: rest)).dropWhile
          (fun d => d = ':' || pyIsSpace d))
    else c :: subThoughtWordFuel f (some c) rest

/-- Scanner for `re.sub(r'\bThought\b[:\s]*', '', cleaned, flags=IGNORECASE)`. -/
def subThoughtWord (cs : List Char) : List Char :=
  subThoughtWordFuel cs.length none cs

/-- Scanner for `re.sub(r'\n\s*\n\s*\n', '\n\n', cleaned)` (main.py 106),
fuelled.  The pattern matches at a newline whose following whitespace run
holds at least two more newlines; the greedy `\s*` quantifiers make the
match extend through the run's last newline, and the replacement is two
newlines; trailing non-newline whitespace of the run survives. -/
def collapseBlankFuel : Nat → List Char → List Char
  | 0, cs => cs
  | _ + 1, [] => []
  | f + 1, c :: rest =>
    if c = '\n' then
      let run := rest.takeWhile pyIsSpace
      if 2 ≤ (run.filter (fun d => d = '\n')).length then
        '\n' :: '\n' :: collapseBlankFuel f
          ((run.reverse.takeWhile (fun d => d ≠ '\n')).reverse ++
            rest.dropWhile pyIsSpace)
      else c :: collapseBlankFuel f rest
    else c :: collapseBlankFuel f rest

/-- Scanner for `re.sub(r'\n\s*\n\s*\n', '\n\n', cleaned)`. -/
def collapseBlank (cs : List Char) : List Char :=
  collapseBlankFuel cs.length cs

/-- The main line-filtering and marker-stripping stage of
`clean_response_text` (main.py 64-107). -/
def mainCleaned (raw : List Char) : List Char :=
  let kept := ((splitNlL raw).map pyStripL).filter
    (fun l => !(l.isEmpty) && lineKept l)
  pyStripL (collapseBlank (subThoughtWord (subThoughtColon
    (pyStripL (joinNl kept)))))

/-- The stripped nonempty paragraphs of the original text (main.py 112). -/
def paragraphsOf (raw : List Char) : List (List Char) :=
  ((splitOnSub ("\n\n".data) raw).map pyStripL).filter (fun p => !(p.isEmpty))

/-- The reversed-paragraph fallback loop of `clean_response_text`
(main.py 113-118): first paragraph (scanning the given order) free of
reasoning phrases and longer than 20 characters. -/
def lastGoodParagraph : List (List Char) → Option (List Char)
  | [] => none
  | p :: rest =>
    if !(thought_patterns.any (fun q => isSubstrL q.data (lowerL p))) &&
        decide (20 < p.length) then some p
    else lastGoodParagraph rest

/-- The fixed clarification prompt (main.py 122). -/
def clarificationPrompt : String :=
  "I\x27m here to help you! Could you please repeat your question?"

/-- Embeds `clean_response_text` (main.py 58-125).  Python's falsiness
tests `not cleaned or len(cleaned) < k` collapse to the length tests. -/
def clean_response_text (raw : String) : String :=
  if raw = "" then ""
  else
    let cleaned := mainCleaned raw.data
    let cleaned2 :=
      if cleaned.length < 20 then
        match lastGoodParagraph (paragraphsOf raw.data).reverse with
        | some p => p
        | none => cleaned
      else cleaned
    if cleaned2.length < 10 then clarificationPrompt
    else ⟨cleaned2⟩


/-- Claim C7 is false as stated, in three ways: the empty input returns
the empty string, not the clarification prompt; the paragraph fallback
skips clean paragraphs of at most 20 characters (under the claim's rule
the last clean paragraph "nice two" or the prompt would be produced, but
the code keeps the joined surviving lines); and a residual standalone
"Thought" word is removed as a substring of its line. -/
theorem c7_counterexample :
    clean_response_text "" = "" ∧
      ("" : String) ≠ clarificationPrompt ∧
      clean_response_text "good one\n\nnice two\n\nI need to go" =
        "good one\nnice two" ∧
      ("good one\nnice two" : String) ≠ "nice two" ∧
      ("good one\nnice two" : String) ≠ clarificationPrompt ∧
      clean_response_text "I Thought about it" = "I about it" ∧
      ("I about it" : String) ≠ "I Thought about it" := by
  decide

/-- Spec-side formulation of the amended C7: whole lines carrying a
reasoning phrase (or starting with a reasoning prefix) are removed and
residual "Thought" markers are deleted as substrings; when the result has
fewer than 20 characters, the last paragraph of the original longer than
20 characters and free of reasoning phrases replaces it, if any; a final
result that is empty or shorter than 10 characters becomes the fixed
clarification prompt; the empty input stays empty. -/
def clean_response_spec (raw : String) : String :=
  if raw = "" then ""
  else
    let main := mainCleaned raw.data
    let result :=
      if 20 ≤ main.length then main
      else
        ((paragraphsOf raw.data).reverse.find? (fun p =>
          !(thought_patterns.any (fun q => isSubstrL q.data (lowerL p))) &&
            decide (20 < p.length))).getD main
    if result = [] ∨ result.length < 10 then clarificationPrompt
    else ⟨result⟩

/-- The Python reversed-for with break is the first match of `find?`. -/
theorem lastGoodParagraph_eq_find (l : List (List Char)) :
    lastGoodParagraph l = l.find? (fun p =>
      !(thought_patterns.any (fun q => isSubstrL q.data (lowerL p))) &&
        decide (20 < p.length)) := by
  induction l with
  | nil => rfl
  | cons p rest ih =>
    simp only [lastGoodParagraph, List.find?]
    by_cases h : (!(thought_patterns.any fun q => isSubstrL q.data (lowerL p)) &&
        decide (20 < p.length)) = true
    · simp [h]
    · simp only [Bool.not_eq_true] at h
      simp [h, ih]

/-- The two final-threshold phrasings agree: an empty list has length 0. -/
theorem clean_final_if (x : List Char) :
    (if x.length < 10 then clarificationPrompt else (⟨x⟩ : String)) =
      (if x = [] ∨ x.length < 10 then clarificationPrompt else ⟨x⟩) := by
  by_cases hx : x.length < 10
  · rw [if_pos hx, if_pos (Or.inr hx)]
  · have hn : ¬ (x = [] ∨ x.length < 10) := by
      rintro (rfl | hl)
      · exact hx (by simp)
      · exact hx hl
    rw [if_neg hx, if_neg hn]

/-- Claim C7 (amended): `clean_response_text` removes whole lines carrying
the fixed reasoning phrases or prefixes, then additionally removes
residual "Thought"/"Thought:" markers as substrings; if the result has
fewer than 20 characters it scans the original's paragraphs from the end
for the last one longer than 20 characters matching no reasoning phrase;
if the final result is empty or shorter than 10 characters it returns the
fixed clarification prompt — except that the empty input returns the
empty string. -/
theorem c7_theorem (raw : String) :
    clean_response_text raw = clean_response_spec raw := by
  unfold clean_response_text clean_response_spec
  by_cases h0 : raw = ""
  · simp [h0]
  · simp only [h0, if_false]
    rw [lastGoodParagraph_eq_find]
    by_cases h1 : (mainCleaned raw.data).length < 20
    · have h1' : ¬ 20 ≤ (mainCleaned raw.data).length := by omega
      rw [if_pos h1, if_neg h1']
      rcases hf : List.find? (fun p =>
          !(thought_patterns.any (fun q => isSubstrL q.data (lowerL p))) &&
            decide (20 < p.length)) (paragraphsOf raw.data).reverse with _ | p
      · exact clean_final_if _
      · exact clean_final_if _
    · have h1' : 20 ≤ (mainCleaned raw.data).length := by omega
      rw [if_neg h1, if_pos h1']
      exact clean_final_if _


/-! ### The turn handlers (main.py 16-30, 128-165, 167-320) -/

/-- External collaborators of a conversation turn: the filesystem and repo
root for chapter resolution, the agent-crew kickoff (returning the `raw`
attribute of its result, possibly absent, or raising), the TTS layer
(which may raise), the document tool `ProcessUploadedDocumentTool._run`
(total: it has its own try/except returning a string), and the environment
of `AnswerFromDocumentTool`. -/
structure CrewEnv where
  fs : FileSystem
  root : String
  kickoff : String → List (String × String) → Except PyErr (Option String)
  tts : String → String → Except PyErr String
  docRun : String → Option String → String
  tool : ToolEnv

/-- Embeds `resolve_chapter_content` (main.py 16-30); Python's
`not pdf_file` is true for an absent or empty path. -/
def resolve_chapter_content (env : CrewEnv) (subject : String)
    (chapter_number : Nat) (content_source : String) (pdf_file : Option String) :
    Except PyErr String :=
  if content_source = "Upload PDF" then
    match pdf_file with
    | none => .error (.fileNotFound "No PDF uploaded. Please upload a chapter PDF.")
    | some p =>
      if p = "" then
        .error (.fileNotFound "No PDF uploaded. Please upload a chapter PDF.")
      else load_pdf_from_path env.fs p
  else if content_source = camera_source then .ok ""
  else load_pdf_content env.fs env.root subject chapter_number

/-- Embeds `process_camera_document` (main.py 128-145): its own try/except
turns any raised exception into a fixed message with null audio. -/
def process_camera_document (env : CrewEnv) (pdf_file : Option String)
    (student_question : String) : String × Option String :=
  match pdf_file with
  | none => ("Please upload a document first!", none)
  | some p =>
    if p = "" then ("Please upload a document first!", none)
    else
      match (do
        let response_text := env.docRun p
          (if pyStrip student_question ≠ "" then some student_question else none)
        let cleaned := clean_text_for_audio response_text false
        let audio ← env.tts cleaned "en"
        pure (response_text, some audio) : Except PyErr (String × Option String)) with
      | .ok r => r
      | .error _ => ("I encountered an error processing your document.", none)

/-- Embeds `answer_document_question` (main.py 148-165). -/
def answer_document_question (env : CrewEnv) (question : String) :
    String × Option String :=
  if pyStrip question = "" then
    ("Please ask a question about your uploaded document!", none)
  else
    match (do
      let response_text := answer_from_document_run env.tool question
      let cleaned := clean_text_for_audio response_text false
      let audio ← env.tts cleaned "en"
      pure (response_text, some audio) : Except PyErr (String × Option String)) with
    | .ok r => r
    | .error _ => ("I had trouble answering your question.", none)

/-- The canned greeting of `start_session` (main.py 201). -/
def default_greeting (subject : String) : String :=
  "Hello! Good morning! I\x27m your " ++ subject ++
    " teacher. Would you like me to explain the chapter, give meanings of words, or answer a question?"

/-- The speech language choice of the handlers (main.py 204). -/
def tts_lang (subject : String) : String :=
  if pyLower subject = "hindi" then "hi" else "en"

/-- The try-block body of `start_session` (main.py 167-206); the absent
`raw` attribute and the raw `None` both clean to the empty string. -/
def start_session_body (env : CrewEnv) (subject : String) (chapter_number : Nat)
    (content_source : String) (pdf_file : Option String) :
    Except PyErr (String × Option String) :=
  if content_source = camera_source then
    match pdf_file with
    | none => .ok ("Please upload your homework or textbook photo/PDF first!", none)
    | some p =>
      if p = "" then
        .ok ("Please upload your homework or textbook photo/PDF first!", none)
      else .ok (process_camera_document env (some p) "")
  else do
    let chapter_content ← resolve_chapter_content env subject chapter_number
      content_source pdf_file
    let raw ← env.kickoff "teaching_task"
      [("subject", subject), ("chapter_number", toString chapter_number),
       ("chapter_content", chapter_content)]
    let response_text := clean_response_text (raw.getD "")
    let response_text :=
      if response_text = "" || containsSub response_text "record_unknown_question" then
        default_greeting subject
      else response_text
    let cleaned := clean_text_for_audio response_text false
    let audio ← env.tts cleaned (tts_lang subject)
    pure (response_text, some audio)

/-- The try-block body of `smart_first_response` (main.py 218-255). -/
def smart_first_response_body (env : CrewEnv) (subject : String)
    (chapter_number : Nat) (content_source : String) (pdf_file : Option String)
    (student_query : String) : Except PyErr (String × Option String) :=
  if content_source = camera_source then
    match pdf_file with
    | none => .ok ("Please upload your homework or textbook first!", none)
    | some p =>
      if p = "" then .ok ("Please upload your homework or textbook first!", none)
      else .ok (process_camera_document env (some p) student_query)
  else do
    let chapter_content ← resolve_chapter_content env subject chapter_number
      content_source pdf_file
    let raw ← env.kickoff "smart_response_task"
      [("subject", subject), ("chapter_number", toString chapter_number),
       ("chapter_content", chapter_content), ("student_query", student_query)]
    let response_text := clean_response_text (raw.getD "")
    let response_text :=
      if response_text = "" then
        "I\x27m here to help! Could you clarify your question?"
      else response_text
    let cleaned := clean_text_for_audio response_text false
    let audio ← env.tts cleaned (tts_lang subject)
    pure (response_text, some audio)

/-- The try-block body of `follow_up` (main.py 267-310). -/
def follow_up_body (env : CrewEnv) (subject : String) (chapter_number : Nat)
    (content_source : String) (pdf_file : Option String) (student_query : String) :
    Except PyErr (String × Option String) :=
  if content_source = camera_source then
    match pdf_file with
    | none => .ok ("Please upload your homework or textbook first!", none)
    | some p =>
      if p = "" then .ok ("Please upload your homework or textbook first!", none)
      else
        let doc_response := (process_camera_document env (some p) student_query).1
        if containsSub doc_response "I can help you with:" then
          .ok (answer_document_question env student_query)
        else .ok (doc_response, none)
  else do
    let chapter_content ← resolve_chapter_content env subject chapter_number
      content_source pdf_file
    let raw ← env.kickoff "follow_up_task"
      [("subject", subject), ("chapter_number", toString chapter_number),
       ("chapter_content", chapter_content), ("student_query", student_query)]
    let response_text := clean_response_text (raw.getD "")
    let response_text :=
      if response_text = "" then
        "I\x27m here to help! Could you clarify your question?"
      else response_text
    let cleaned := clean_text_for_audio response_text false
    let audio ← env.tts cleaned (tts_lang subject)
    pure (response_text, some audio)

/-- The apologetic message a handler's except clauses produce for a raised
exception, given the handler's catch-all text (main.py 208-216, 257-265,
312-320). -/
def handler_apology (oops : String) : PyErr → String
  | .fileNotFound m => "Sorry, I couldn\x27t find your content. " ++ m
  | .valueError m => "I found a file but couldn\x27t read text from it. " ++ m
  | .other _ => oops

/-- The catch-all text of `start_session`. -/
def oops_start : String :=
  "Oops! Something went wrong while starting the session. Please try again."

/-- The catch-all text of `smart_first_response` and `follow_up`. -/
def oops_answer : String :=
  "Oops! Something went wrong while answering your question. Please try again."

/-- Embeds `start_session` (main.py 167-216): the body wrapped in the
three except clauses. -/
def start_session (env : CrewEnv) (subject : String) (chapter_number : Nat)
    (content_source : String) (pdf_file : Option String) : String × Option String :=
  match start_session_body env subject chapter_number content_source pdf_file with
  | .ok r => r
  | .error e => (handler_apology oops_start e, none)

/-- Embeds `smart_first_response` (main.py 218-265). -/
def smart_first_response (env : CrewEnv) (subject : String) (chapter_number : Nat)
    (content_source : String) (pdf_file : Option String) (student_query : String) :
    String × Option String :=
  match smart_first_response_body env subject chapter_number content_source
      pdf_file student_query with
  | .ok r => r
  | .error e => (handler_apology oops_answer e, none)

/-- Embeds `follow_up` (main.py 267-320). -/
def follow_up (env : CrewEnv) (subject : String) (chapter_number : Nat)
    (content_source : String) (pdf_file : Option String) (student_query : String) :
    String × Option String :=
  match follow_up_body env subject chapter_number content_source
      pdf_file student_query with
  | .ok r => r
  | .error e => (handler_apology oops_answer e, none)

/-- Claim C8 (confirmed): each of the three turn handlers is total — it
returns the body's pair when the body finishes, and when the body raises
any error (content not found, unreadable content, or any other processing
failure) it returns the matching apologetic message paired with a null
audio result; no exception escapes the handler. -/
theorem c8_theorem (env : CrewEnv) (subject : String) (n : Nat) (src : String)
    (pdf : Option String) (q : String) :
    (∀ r, start_session_body env subject n src pdf = .ok r →
        start_session env subject n src pdf = r) ∧
    (∀ e, start_session_body env subject n src pdf = .error e →
        start_session env subject n src pdf = (handler_apology oops_start e, none)) ∧
    (∀ r, smart_first_response_body env subject n src pdf q = .ok r →
        smart_first_response env subject n src pdf q = r) ∧
    (∀ e, smart_first_response_body env subject n src pdf q = .error e →
        smart_first_response env subject n src pdf q =
          (handler_apology oops_answer e, none)) ∧
    (∀ r, follow_up_body env subject n src pdf q = .ok r →
        follow_up env subject n src pdf q = r) ∧
    (∀ e, follow_up_body env subject n src pdf q = .error e →
        follow_up env subject n src pdf q = (handler_apology oops_answer e, none)) := by
  refine ⟨?_, ?_, ?_, ?_, ?_, ?_⟩
  · intro r hr
    unfold start_session
    rw [hr]
  · intro e he
    unfold start_session
    rw [he]
  · intro r hr
    unfold smart_first_response
    rw [hr]
  · intro e he
    unfold smart_first_response
    rw [he]
  · intro r hr
    unfold follow_up
    rw [hr]
  · intro e he
    unfold follow_up
    rw [he]

/-- Concrete environment whose chapter filesystem is empty: every
non-camera body raises the not-found error inside the handler. -/
def c8env : CrewEnv :=
  ⟨fun _ => none, "/repo", fun _ _ => .ok (some "reply"),
   fun _ _ => .ok "/tmp/audio.mp3", fun _ _ => "doc", 
   ⟨none, fun _ => false, fun _ => .ok ""⟩⟩

/-- Witness for C8's theorem: with no chapter file present each handler
converts the raised not-found error into its apologetic message with null
audio. -/
theorem c8_witness :
    start_session c8env "Math" 1 "Chapter" none =
      (handler_apology oops_start
        (.fileNotFound (content_not_found_msg "/repo" "Math" 1)), none) ∧
    smart_first_response c8env "Math" 1 "Chapter" none "what?" =
      (handler_apology oops_answer
        (.fileNotFound (content_not_found_msg "/repo" "Math" 1)), none) ∧
    follow_up c8env "Math" 1 "Chapter" none "why?" =
      (handler_apology oops_answer
        (.fileNotFound (content_not_found_msg "/repo" "Math" 1)), none) := by
  refine ⟨?_, ?_, ?_⟩
  · exact (c8_theorem c8env "Math" 1 "Chapter" none "").2.1 _ rfl
  · exact (c8_theorem c8env "Math" 1 "Chapter" none "what?").2.2.2.1 _ rfl
  · exact (c8_theorem c8env "Math" 1 "Chapter" none "why?").2.2.2.2.2 _ rfl


end VT
